import Mathlib

/-!
# PtySession: a shallow embedding of `pty_session.cpp`

The session object is a record of its member variables.  Every member function
becomes a pure function that takes the session, the arguments of the call and
the answers the operating system gives to the system calls the function
issues, and returns the function's result, the session afterwards and the list
of system calls issued, in order.
-/

namespace PtySession

/-! ## Data model -/

/-- The member variables of `class PtySession` (`pty_session.h`). -/
structure Session where
  m_id : Int
  m_masterFd : Int
  m_slaveFd : Int
  m_pid : Int
  m_cols : Int
  m_rows : Int
  m_running : Bool
  m_exitCode : Int
  m_lastError : String
  m_interruptPipe0 : Int
  m_interruptPipe1 : Int
  deriving DecidableEq, Repr

/-- A system call issued by a member function, with the arguments that matter. -/
inductive OsCall where
  | pipe
  | posix_openpt
  | grantpt (fd : Int)
  | unlockpt (fd : Int)
  | ptsname (fd : Int)
  | openSlave (name : String)
  | fcntl (fd : Int)
  | tcgetattr (fd : Int)
  | tcsetattr (fd : Int)
  | fork
  | closeFd (fd : Int)
  | ioctlWinsz (fd : Int) (cols rows : Int)
  | writeFd (fd : Int) (data : List Nat)
  | readFd (fd : Int) (count : Nat)
  | gettimeofday
  | select (masterFd : Int) (pipeFd : Option Int) (tv : Option (Int × Int))
  | kill (pid : Int) (sig : Int)
  | waitpid (pid : Int) (nohang : Bool)
  | usleep (usec : Nat)
  deriving DecidableEq, Repr

/-- What a member function leaves behind: its return value, the session
afterwards and the system calls it issued. -/
structure Ret (α : Type) where
  value : α
  state : Session
  calls : List OsCall
  deriving DecidableEq, Repr

/-- Modelled from the spec: the hang-up signal `SIGHUP` of the system header
`<signal.h>`, which is not among the sources. -/
def SIGHUP : Int := 1

/-- Modelled from the spec: the kill signal `SIGKILL` of `<signal.h>` ("killed by
signal 9"). -/
def SIGKILL : Int := 9

/-- Modelled from the spec: the terminate signal `SIGTERM` of `<signal.h>`. -/
def SIGTERM : Int := 15

/-! ## Wait status words -/

/-- Modelled from the spec: `WIFEXITED` is a macro of the system header
`<sys/wait.h>`, which is not among the sources.  The status word has the
traditional layout: the low seven bits hold the terminating signal (0 for a
normal exit, 0x7f for a stopped child), the next eight bits the exit code. -/
def WIFEXITED (status : Int) : Bool := status % 128 == 0

/-- Modelled from the spec: `WEXITSTATUS` of `<sys/wait.h>`, bits 8..15 of the
status word: the numeric exit code. -/
def WEXITSTATUS (status : Int) : Int := (status / 256) % 256

/-- Modelled from the spec: `WIFSIGNALED` of `<sys/wait.h>`: the low seven bits
are neither 0 (normal exit) nor 0x7f (stopped). -/
def WIFSIGNALED (status : Int) : Bool := status % 128 != 0 && status % 128 != 127

/-- Modelled from the spec: `WTERMSIG` of `<sys/wait.h>`, the low seven bits of
the status word: the terminating signal number. -/
def WTERMSIG (status : Int) : Int := status % 128

/-- The answer of the operating system to one `waitpid(m_pid, &status, flags)`. -/
inductive WaitOutcome where
  /-- the call returns 0: the child has not changed state; `status` is untouched -/
  | noChange
  /-- the call returns the child's pid and stores the status word -/
  | reaped (status : Int)
  /-- the call returns -1; `status` is untouched -/
  | failed
  deriving DecidableEq, Repr

/-- The call `waitpid(pid, &status, flags)`: its return value and the content
of the variable `status` afterwards, given the content before. -/
def waitpid (pid : Int) (status : Int) : WaitOutcome → Int × Int
  | .noChange => (0, status)
  | .reaped st => (pid, st)
  | .failed => (-1, status)

/-! ## Construction -/

/-- The constructor `PtySession::PtySession(int id)`; `pipeAns` is `none` when `pipe`
fails and the two descriptors otherwise. -/
def construct (id : Int) (pipeAns : Option (Nat × Nat)) : Session × List OsCall :=
  let s : Session :=
    { m_id := id, m_masterFd := -1, m_slaveFd := -1, m_pid := -1, m_cols := 80,
      m_rows := 24, m_running := false, m_exitCode := -1, m_lastError := "",
      m_interruptPipe0 := -1, m_interruptPipe1 := -1 }
  match pipeAns with
  | none => (s, [.pipe])
  | some (r, w) =>
    ({ s with m_interruptPipe0 := r, m_interruptPipe1 := w }, [.pipe, .fcntl r, .fcntl w])

/-! ## Accessors -/

/-- The accessor `pid()`. -/
def pid (s : Session) : Int := s.m_pid

/-- The accessor `isRunning()`. -/
def isRunning (s : Session) : Bool := s.m_running

/-- The accessor `exitCode()`. -/
def exitCode (s : Session) : Int := s.m_exitCode

/-- The accessor `lastError()`. -/
def lastError (s : Session) : String := s.m_lastError

/-! ## checkRunning -/

/-- The function `PtySession::checkRunning`.  `uninit` is the indeterminate initial
content of the local variable `status`; `w` is the answer to the one
non-blocking `waitpid`. -/
def checkRunning (s : Session) (uninit : Int) (w : WaitOutcome) : Ret Bool :=
  if s.m_running = false ∨ s.m_pid ≤ 0 then
    ⟨false, s, []⟩
  else
    let r := waitpid s.m_pid uninit w
    let result := r.1
    let status := r.2
    let calls := [OsCall.waitpid s.m_pid true]
    if result = 0 then
      ⟨true, s, calls⟩
    else if result = s.m_pid then
      let s1 : Session := { s with m_running := false }
      if WIFEXITED status then
        ⟨false, { s1 with m_exitCode := WEXITSTATUS status }, calls⟩
      else if WIFSIGNALED status then
        ⟨false, { s1 with m_exitCode := -WTERMSIG status }, calls⟩
      else
        ⟨false, { s1 with m_exitCode := -1 }, calls⟩
    else
      ⟨false, s, calls⟩

/-! ## close -/

/-- The answers of the operating system that `close` looks at: the outcomes of
its (up to) three `waitpid` calls, and the indeterminate initial content of
the local variable `status`. -/
structure CloseAnswers where
  uninit : Int
  w1 : WaitOutcome
  w2 : WaitOutcome
  w3 : WaitOutcome
  deriving DecidableEq, Repr

/-- Lines 391-395 of `close`: wake a reader through the self-pipe. -/
def closeWake (s : Session) : List OsCall :=
  if 0 ≤ s.m_interruptPipe1 then [.writeFd s.m_interruptPipe1 [120]] else []

/-- Lines 397-401 of `close`: release the master descriptor. -/
def closeMaster (s : Session) : Session × List OsCall :=
  if 0 ≤ s.m_masterFd then ({ s with m_masterFd := -1 }, [.closeFd s.m_masterFd]) else (s, [])

/-- Lines 403-407 of `close`: release the slave descriptor. -/
def closeSlave (s : Session) : Session × List OsCall :=
  if 0 ≤ s.m_slaveFd then ({ s with m_slaveFd := -1 }, [.closeFd s.m_slaveFd]) else (s, [])

/-- Lines 414-429 of `close`: the escalation; returns the content of `status`
once the escalation is over, and the calls issued. -/
def closeEscalate (childPid : Int) (a : CloseAnswers) : Int × List OsCall :=
  let c1 := [OsCall.kill childPid SIGHUP, OsCall.waitpid childPid true]
  let r1 := waitpid childPid a.uninit a.w1
  if r1.1 = 0 then
    let c2 := c1 ++ [OsCall.kill childPid SIGTERM, OsCall.usleep 100000,
                     OsCall.waitpid childPid true]
    let r2 := waitpid childPid r1.2 a.w2
    if r2.1 = 0 then
      let r3 := waitpid childPid r2.2 a.w3
      (r3.2, c2 ++ [OsCall.kill childPid SIGKILL, OsCall.waitpid childPid false])
    else
      (r2.2, c2)
  else
    (r1.2, c1)

/-- Lines 409-437 of `close`: terminate and reap the child. -/
def closeChild (s : Session) (a : CloseAnswers) : Session × List OsCall :=
  if 0 < s.m_pid ∧ s.m_running = true then
    let e := closeEscalate s.m_pid a
    let status := e.1
    let s1 : Session := if WIFEXITED status then { s with m_exitCode := WEXITSTATUS status } else s
    ({ s1 with m_running := false, m_pid := -1 }, e.2)
  else
    (s, [])

/-- Lines 439-446 of `close`: release the self-pipe. -/
def closePipes (s : Session) : Session × List OsCall :=
  let p0 := if 0 ≤ s.m_interruptPipe0
    then ({ s with m_interruptPipe0 := -1 }, [OsCall.closeFd s.m_interruptPipe0]) else (s, [])
  let p1 := if 0 ≤ p0.1.m_interruptPipe1
    then ({ p0.1 with m_interruptPipe1 := -1 }, [OsCall.closeFd p0.1.m_interruptPipe1])
    else (p0.1, [])
  (p1.1, p0.2 ++ p1.2)

/-- The function `PtySession::close`. -/
def close (s : Session) (a : CloseAnswers) : Ret Bool :=
  let c0 := closeWake s
  let m := closeMaster s
  let sl := closeSlave m.1
  let ch := closeChild sl.1 a
  let p := closePipes ch.1
  ⟨true, p.1, c0 ++ m.2 ++ sl.2 ++ ch.2 ++ p.2⟩

/-! ## write, resize, sendSignal -/

/-- The function `PtySession::write`; `ans` is what the one `::write` call returns. -/
def write (s : Session) (data : List Nat) (ans : Int) : Ret Int :=
  if s.m_masterFd < 0 ∨ s.m_running = false then
    ⟨-1, s, []⟩
  else
    ⟨ans, s, [.writeFd s.m_masterFd data]⟩

/-- The function `PtySession::resize`; `ans` is what the `ioctl` call returns. -/
def resize (s : Session) (cols rows : Int) (ans : Int) : Ret Bool :=
  if s.m_masterFd < 0 then
    ⟨false, s, []⟩
  else if ans ≠ -1 then
    ⟨true, { s with m_cols := cols, m_rows := rows }, [.ioctlWinsz s.m_masterFd cols rows]⟩
  else
    ⟨false, s, [.ioctlWinsz s.m_masterFd cols rows]⟩

/-- The function `PtySession::sendSignal`; `k1` and `k2` are what the two `::kill`
calls return. -/
def sendSignal (s : Session) (signum : Int) (k1 k2 : Int) : Ret Bool :=
  if s.m_pid ≤ 0 ∨ s.m_running = false then
    ⟨false, s, []⟩
  else if k1 = 0 then
    ⟨true, s, [.kill (-s.m_pid) signum]⟩
  else
    ⟨decide (k2 = 0), s, [.kill (-s.m_pid) signum, .kill s.m_pid signum]⟩

/-! ## read -/

/-- The answer to one `select` call, as far as `read` looks at it: the return
value, whether `errno` is `EINTR` (read only when the return value is
negative), and whether the read end of the self-pipe is set in `readfds`
afterwards. -/
structure SelectAnswer where
  rc : Int
  eintr : Bool
  pipeReady : Bool
  deriving DecidableEq, Repr

/-- The answer to one `::read(m_masterFd, &result[totalRead], toRead)`: either
the call fails and returns -1, or it stores a chunk of bytes at the given
buffer position and returns the chunk's length (0 at end of file). -/
inductive ReadAnswer where
  | error
  | bytes (chunk : List Nat)
  deriving DecidableEq, Repr

/-- The value `n` that the `::read` call returns. -/
def ReadAnswer.n : ReadAnswer → Int
  | .error => -1
  | .bytes chunk => chunk.length

/-- The bytes that the `::read` call stores into the buffer. -/
def ReadAnswer.chunk : ReadAnswer → List Nat
  | .error => []
  | .bytes chunk => chunk

/-- The answers of the operating system within one iteration of the loop of
`read`: the answer to `select` and, should the iteration go on to call
`::read`, the answer to that call. -/
structure IterAnswer where
  sel : SelectAnswer
  rd : ReadAnswer
  deriving DecidableEq, Repr

/-- One `::read` as it happened: the count asked for and the answer given. -/
structure ReadEvent where
  asked : Nat
  answer : ReadAnswer
  deriving DecidableEq, Repr

/-- The local variables of `read` when its loop is left, with the system calls
issued and the `::read` calls answered so far. -/
structure LoopEnd where
  result : List Nat
  totalRead : Nat
  calls : List OsCall
  reads : List ReadEvent
  deriving DecidableEq, Repr

/-- The store of `chunk` into the buffer `buf` from position `off` on. -/
def storeAt (buf : List Nat) (off : Nat) (chunk : List Nat) : List Nat :=
  buf.take off ++ chunk ++ buf.drop (off + chunk.length)

/-- The call `result.resize(n)` of `std::string`: cut, or pad with zero bytes. -/
def resizeString (buf : List Nat) (n : Nat) : List Nat :=
  buf.take n ++ List.replicate (n - buf.length) 0

/-- The timeout handed to `select` (lines 261-280 of `read`): `none` is the null
pointer, an unbounded wait; `some (sec, usec)` is the `timeval`. -/
def selectTimeout (firstIteration : Bool) (timeoutMs : Int) : Option (Int × Int) :=
  if firstIteration = true ∧ timeoutMs < 0 then
    none
  else if firstIteration = true then
    some (Int.tdiv timeoutMs 1000, Int.tmod timeoutMs 1000 * 1000)
  else
    some (0, 0)

/-- The descriptors put into `readfds` besides the master (lines 286-292). -/
def selectPipe (s : Session) : Option Int :=
  if 0 ≤ s.m_interruptPipe0 then some s.m_interruptPipe0 else none

/-- The loop of `read` (lines 259-318).  Every iteration takes the next entry
of `script`; the loop has no result when the script ends before the loop
does.  `maxBytes` is the capped value. -/
def readLoop (s : Session) (maxBytes : Nat) (timeoutMs : Int) :
    List IterAnswer → Bool → LoopEnd → Option LoopEnd
  | script, firstIteration, st =>
    if st.totalRead < maxBytes then
      match script with
      | [] => none
      | it :: rest =>
        let tv := selectTimeout firstIteration timeoutMs
        let st1 := { st with calls := st.calls ++ [OsCall.select s.m_masterFd (selectPipe s) tv] }
        if it.sel.rc < 0 then
          if it.sel.eintr = true then readLoop s maxBytes timeoutMs rest false st1
          else some st1
        else if 0 ≤ s.m_interruptPipe0 ∧ it.sel.pipeReady = true then
          some st1
        else if it.sel.rc = 0 then
          some st1
        else
          let toRead := maxBytes - st.totalRead
          let n := it.rd.n
          let st2 := { st1 with
            calls := st1.calls ++ [OsCall.readFd s.m_masterFd toRead]
            reads := st1.reads ++ [⟨toRead, it.rd⟩] }
          if n ≤ 0 then some st2
          else
            let st3 := { st2 with
              result := storeAt st2.result st2.totalRead it.rd.chunk
              totalRead := st2.totalRead + n.toNat }
            if n < (toRead : Int) then some st3
            else readLoop s maxBytes timeoutMs rest false st3
    else
      some st

/-- What `read` leaves behind: the bytes returned, the session, the system
calls issued, and the `::read` calls as they were answered. -/
structure ReadRet where
  value : List Nat
  state : Session
  calls : List OsCall
  reads : List ReadEvent
  deriving DecidableEq, Repr

/-- The cap on `maxBytes` (line 240). -/
def capBytes (maxBytes : Nat) : Nat := if maxBytes > 65536 then 65536 else maxBytes

/-- The function `PtySession::read`.  The deadline computed in lines 248-255 is
never read again; of that part only the call of `gettimeofday` is kept.
The result is `none` when the script of answers ends before the loop does
(the loop is still being interrupted). -/
def read (s : Session) (maxBytes : Nat) (timeoutMs : Int) (script : List IterAnswer) :
    Option ReadRet :=
  if s.m_masterFd < 0 then
    some ⟨[], s, [], []⟩
  else
    let cap := capBytes maxBytes
    let init : LoopEnd := ⟨List.replicate cap 0, 0, [OsCall.gettimeofday], []⟩
    match readLoop s cap timeoutMs script true init with
    | none => none
    | some e => some ⟨resizeString e.result e.totalRead, s, e.calls, e.reads⟩

/-! ## start -/

/-- The answers of the operating system to the calls of `start`.  `strerror` is
the text of `strerror(errno)` at the step that fails; `closing` holds the
answers for the `close()` that a failing `start` calls. -/
structure StartAnswers where
  openpt : Option Nat
  grantpt : Int
  unlockpt : Int
  ptsname : Option String
  openSlave : Option Nat
  tcgetattr : Int
  tcsetattr : Int
  fork : Int
  ioctl : Int
  strerror : String
  closing : CloseAnswers
  deriving DecidableEq, Repr

/-- The value returned by a call that opens a descriptor: the descriptor, or
-1 on failure. -/
def fdOf : Option Nat → Int
  | none => -1
  | some fd => fd

/-- The function `PtySession::configurePty`. -/
def configurePty (s : Session) (a : StartAnswers) : Ret Bool :=
  if a.tcgetattr ≠ 0 then
    ⟨false, { s with m_lastError := "tcgetattr failed: " ++ a.strerror },
      [.tcgetattr s.m_masterFd]⟩
  else if a.tcsetattr ≠ 0 then
    ⟨false, { s with m_lastError := "tcsetattr failed: " ++ a.strerror },
      [.tcgetattr s.m_masterFd, .tcsetattr s.m_masterFd]⟩
  else
    ⟨true, s, [.tcgetattr s.m_masterFd, .tcsetattr s.m_masterFd]⟩

/-- The failure path of `start`: `close(); return false;`. -/
def abortStart (s : Session) (calls : List OsCall) (a : StartAnswers) : Ret Bool :=
  let r := close s a.closing
  ⟨false, r.state, calls ++ r.calls⟩

/-- The function `PtySession::start`, as seen by the calling process.  The result is
`none` in the child branch of `fork` (lines 165-209), which never returns to
the caller: it ends in `execl` or `_exit(127)`. -/
def start (s : Session) (cols rows : Int) (a : StartAnswers) : Option (Ret Bool) :=
  let s1 : Session := { s with m_cols := cols, m_rows := rows, m_masterFd := fdOf a.openpt }
  let c1 := [OsCall.posix_openpt]
  if s1.m_masterFd < 0 then
    some ⟨false, { s1 with m_lastError := "posix_openpt failed: " ++ a.strerror }, c1⟩
  else
  let c2 := c1 ++ [OsCall.grantpt s1.m_masterFd]
  if a.grantpt ≠ 0 then
    some (abortStart { s1 with m_lastError := "grantpt failed: " ++ a.strerror } c2 a)
  else
  let c3 := c2 ++ [OsCall.unlockpt s1.m_masterFd]
  if a.unlockpt ≠ 0 then
    some (abortStart { s1 with m_lastError := "unlockpt failed: " ++ a.strerror } c3 a)
  else
  let c4 := c3 ++ [OsCall.ptsname s1.m_masterFd]
  match a.ptsname with
  | none =>
    some (abortStart { s1 with m_lastError := "ptsname failed: " ++ a.strerror } c4 a)
  | some slaveName =>
  let s2 : Session := { s1 with m_slaveFd := fdOf a.openSlave }
  let c5 := c4 ++ [OsCall.openSlave slaveName]
  if s2.m_slaveFd < 0 then
    some (abortStart { s2 with m_lastError := "open slave failed: " ++ a.strerror } c5 a)
  else
  let c6 := c5 ++ [OsCall.fcntl s2.m_masterFd, OsCall.fcntl s2.m_slaveFd]
  let cfg := configurePty s2 a
  let c7 := c6 ++ cfg.calls
  if cfg.value = false then
    some (abortStart cfg.state c7 a)
  else
  let s3 := cfg.state
  let c8 := c7 ++ [OsCall.fork]
  if a.fork < 0 then
    some (abortStart { s3 with m_lastError := "fork failed: " ++ a.strerror } c8 a)
  else if a.fork = 0 then
    none
  else
  let c9 := c8 ++ [OsCall.closeFd s3.m_slaveFd]
  let s4 : Session := { s3 with m_slaveFd := -1, m_pid := a.fork, m_running := true }
  let rz := resize s4 cols rows a.ioctl
  some ⟨true, rz.state, c9 ++ rz.calls⟩

/-! ## Reachable sessions -/

/-- A call of a public member function, with the answers of the operating
system to the system calls it issues. -/
inductive Op where
  | start (cols rows : Int) (a : StartAnswers)
  | write (data : List Nat) (ans : Int)
  | read (maxBytes : Nat) (timeoutMs : Int) (script : List IterAnswer)
  | resize (cols rows : Int) (ans : Int)
  | sendSignal (signum : Int) (k1 k2 : Int)
  | checkRunning (uninit : Int) (w : WaitOutcome)
  | close (a : CloseAnswers)
  deriving DecidableEq, Repr

/-- The session after a call that returns; `none` when the call does not
return to the caller. -/
def step (s : Session) : Op → Option Session
  | .start cols rows a => (start s cols rows a).map (·.state)
  | .write data ans => some (write s data ans).state
  | .read maxBytes timeoutMs script => (read s maxBytes timeoutMs script).map (·.state)
  | .resize cols rows ans => some (resize s cols rows ans).state
  | .sendSignal signum k1 k2 => some (sendSignal s signum k1 k2).state
  | .checkRunning uninit w => some (checkRunning s uninit w).state
  | .close a => some (close s a).state

/-- The sessions reachable from construction through the public operations,
whatever the operating system answers. -/
inductive Reachable : Session → Prop where
  | construct (id : Int) (pipeAns : Option (Nat × Nat)) :
      Reachable (construct id pipeAns).1
  | step {s t : Session} (op : Op) : Reachable s → step s op = some t → Reachable t

/-! ## Sample sessions and answers -/

/-- A freshly constructed session whose self-pipe is the descriptor pair (3, 4). -/
def sampleFresh : Session := (construct 1 (some (3, 4))).1

/-- A session as `start` leaves it: master descriptor 5, child 1234. -/
def sampleRunning : Session :=
  { m_id := 1, m_masterFd := 5, m_slaveFd := -1, m_pid := 1234, m_cols := 80,
    m_rows := 24, m_running := true, m_exitCode := -1, m_lastError := "",
    m_interruptPipe0 := 3, m_interruptPipe1 := 4 }

/-- Answers with which every step of `start` succeeds; the child is 1234, and
a later `close` would see the child die only of the forced kill. -/
def sampleAnswers : StartAnswers :=
  { openpt := some 5, grantpt := 0, unlockpt := 0, ptsname := some "/dev/ttys003",
    openSlave := some 6, tcgetattr := 0, tcsetattr := 0, fork := 1234, ioctl := 0,
    strerror := "Input/output error",
    closing := ⟨0, .noChange, .noChange, .reaped 9⟩ }

/-! ## The session invariant -/

/-- The invariant of the sessions reachable through the public operations: a
session marked running has a positive child pid, and the two descriptors
are never below -1. -/
def Inv (s : Session) : Prop :=
  (s.m_running = true → 0 < s.m_pid) ∧ -1 ≤ s.m_masterFd ∧ -1 ≤ s.m_slaveFd

/-! ## The steps of `start` -/

/-- The steps of `start` that can fail, in the order in which `start` takes them. -/
inductive StartStep where
  | openpt | grantpt | unlockpt | ptsname | openSlave | tcgetattr | tcsetattr | fork
  deriving DecidableEq, Repr, Fintype

/-- Whether the answers make a step fail, by the test that `start` (or
`configurePty`) applies to the step's result. -/
def StartStep.fails (a : StartAnswers) : StartStep → Prop
  | .openpt => fdOf a.openpt < 0
  | .grantpt => a.grantpt ≠ 0
  | .unlockpt => a.unlockpt ≠ 0
  | .ptsname => a.ptsname = none
  | .openSlave => fdOf a.openSlave < 0
  | .tcgetattr => a.tcgetattr ≠ 0
  | .tcsetattr => a.tcsetattr ≠ 0
  | .fork => a.fork < 0

instance StartStep.decFails (a : StartAnswers) : (t : StartStep) → Decidable (t.fails a)
  | .openpt => inferInstanceAs (Decidable (fdOf a.openpt < 0))
  | .grantpt => inferInstanceAs (Decidable (a.grantpt ≠ 0))
  | .unlockpt => inferInstanceAs (Decidable (a.unlockpt ≠ 0))
  | .ptsname => inferInstanceAs (Decidable (a.ptsname = none))
  | .openSlave => inferInstanceAs (Decidable (fdOf a.openSlave < 0))
  | .tcgetattr => inferInstanceAs (Decidable (a.tcgetattr ≠ 0))
  | .tcsetattr => inferInstanceAs (Decidable (a.tcsetattr ≠ 0))
  | .fork => inferInstanceAs (Decidable (a.fork < 0))

/-- The position of a step in the sequence of `start`. -/
def StartStep.index : StartStep → Nat
  | .openpt => 0
  | .grantpt => 1
  | .unlockpt => 2
  | .ptsname => 3
  | .openSlave => 4
  | .tcgetattr => 5
  | .tcsetattr => 6
  | .fork => 7

/-- The name by which `lastError` refers to a step. -/
def StartStep.name : StartStep → String
  | .openpt => "posix_openpt"
  | .grantpt => "grantpt"
  | .unlockpt => "unlockpt"
  | .ptsname => "ptsname"
  | .openSlave => "open slave"
  | .tcgetattr => "tcgetattr"
  | .tcsetattr => "tcsetattr"
  | .fork => "fork"

/-- The step fails and no step before it does. -/
def firstToFail (a : StartAnswers) (step : StartStep) : Prop :=
  step.fails a ∧ ∀ t : StartStep, t.index < step.index → ¬ t.fails a

instance firstToFail.dec (a : StartAnswers) (step : StartStep) : Decidable (firstToFail a step) :=
  inferInstanceAs (Decidable (step.fails a ∧ ∀ t : StartStep, t.index < step.index → ¬ t.fails a))

/-- The descriptors opened by the steps before `step`: the master by
`posix_openpt`, the slave by `open`. -/
def openedBefore (a : StartAnswers) (step : StartStep) : List Int :=
  (if StartStep.openpt.index < step.index then [fdOf a.openpt] else []) ++
  (if StartStep.openSlave.index < step.index then [fdOf a.openSlave] else [])


/-! ## Words for the claims about `read` -/

/-- The `select` of the iteration is interrupted by a signal (`rc < 0` with
`errno == EINTR`): the one answer on which the loop goes round again
without having done anything. -/
def IterAnswer.interrupted (it : IterAnswer) : Prop :=
  it.sel.rc < 0 ∧ it.sel.eintr = true

instance IterAnswer.decInterrupted (it : IterAnswer) : Decidable it.interrupted :=
  inferInstanceAs (Decidable (it.sel.rc < 0 ∧ it.sel.eintr = true))

/-- Every `select` in the list has a zero timeout: it polls and does not block. -/
def ZeroWaits (l : List OsCall) : Prop :=
  ∀ c ∈ l, ∀ m p tv, c = OsCall.select m p tv → tv = some (0, 0)


/-- The chunks delivered by the `::read` calls of one `read`, joined in order. -/
def deliveredBytes (reads : List ReadEvent) : List Nat :=
  (reads.map (fun e => e.answer.chunk)).flatten

/-- Every `::read` was asked for a positive count, namely the capacity `cap` less
the bytes accumulated before it (`acc` at the start of the list). -/
def askedRemaining (cap : Nat) : Nat → List ReadEvent → Prop
  | _, [] => True
  | acc, e :: es =>
    0 < e.asked ∧ e.asked = cap - acc ∧ askedRemaining cap (acc + e.answer.chunk.length) es


/-! ## Words for the claims about cancellation and escalation -/

/-- The readiness waits of a `read` that does nothing but wait `n` times: the
first with the timeout of a first iteration (when `firstIteration` holds),
the others with a zero timeout. -/
def waitCalls (s : Session) (timeoutMs : Int) : Bool → Nat → List OsCall
  | _, 0 => []
  | firstIteration, n + 1 =>
    OsCall.select s.m_masterFd (selectPipe s) (selectTimeout firstIteration timeoutMs)
      :: waitCalls s timeoutMs false n

/-- The signals sent, in order, each with the process it was sent to. -/
def killCalls : List OsCall → List (Int × Int)
  | [] => []
  | OsCall.kill target sig :: cs => (target, sig) :: killCalls cs
  | _ :: cs => killCalls cs

/-- The number of blocking waits (`waitpid` without `WNOHANG`) among the calls. -/
def blockingWaits : List OsCall → Nat
  | [] => 0
  | OsCall.waitpid _ false :: cs => blockingWaits cs + 1
  | _ :: cs => blockingWaits cs

/-- The order in which `close` escalates: hang-up, terminate, kill. -/
def escalation : List Int := [SIGHUP, SIGTERM, SIGKILL]

/-! ## Facts about `close` -/

theorem close_value (s : Session) (a : CloseAnswers) : (close s a).value = true := rfl

theorem closeMaster_fst (s : Session) :
    (closeMaster s).1
      = { s with m_masterFd := if 0 ≤ s.m_masterFd then -1 else s.m_masterFd } := by
  unfold closeMaster
  split_ifs <;> rfl

theorem closeSlave_fst (s : Session) :
    (closeSlave s).1
      = { s with m_slaveFd := if 0 ≤ s.m_slaveFd then -1 else s.m_slaveFd } := by
  unfold closeSlave
  split_ifs <;> rfl

theorem closePipes_fst (s : Session) :
    (closePipes s).1
      = { s with
          m_interruptPipe0 := if 0 ≤ s.m_interruptPipe0 then -1 else s.m_interruptPipe0
          m_interruptPipe1 := if 0 ≤ s.m_interruptPipe1 then -1 else s.m_interruptPipe1 } := by
  unfold closePipes
  by_cases h0 : 0 ≤ s.m_interruptPipe0 <;> by_cases h1 : 0 ≤ s.m_interruptPipe1 <;>
    simp [h0, h1]

/-- The exit code that the child stage of `close` leaves behind. -/
theorem closeChild_fst (s : Session) (a : CloseAnswers) :
    (closeChild s a).1
      = { s with
          m_running := if 0 < s.m_pid ∧ s.m_running = true then false else s.m_running
          m_pid := if 0 < s.m_pid ∧ s.m_running = true then -1 else s.m_pid
          m_exitCode :=
            if 0 < s.m_pid ∧ s.m_running = true then
              (if WIFEXITED (closeEscalate s.m_pid a).1 = true
                then WEXITSTATUS (closeEscalate s.m_pid a).1 else s.m_exitCode)
            else s.m_exitCode } := by
  unfold closeChild
  split_ifs <;> simp_all

theorem close_state (s : Session) (a : CloseAnswers) :
    (close s a).state
      = { m_id := s.m_id
          m_masterFd := if 0 ≤ s.m_masterFd then -1 else s.m_masterFd
          m_slaveFd := if 0 ≤ s.m_slaveFd then -1 else s.m_slaveFd
          m_pid := if 0 < s.m_pid ∧ s.m_running = true then -1 else s.m_pid
          m_cols := s.m_cols
          m_rows := s.m_rows
          m_running := if 0 < s.m_pid ∧ s.m_running = true then false else s.m_running
          m_exitCode :=
            if 0 < s.m_pid ∧ s.m_running = true then
              (if WIFEXITED (closeEscalate s.m_pid a).1 = true
                then WEXITSTATUS (closeEscalate s.m_pid a).1 else s.m_exitCode)
            else s.m_exitCode
          m_lastError := s.m_lastError
          m_interruptPipe0 := if 0 ≤ s.m_interruptPipe0 then -1 else s.m_interruptPipe0
          m_interruptPipe1 := if 0 ≤ s.m_interruptPipe1 then -1 else s.m_interruptPipe1 } := by
  show (closePipes (closeChild (closeSlave (closeMaster s).1).1 a).1).1 = _
  rw [closePipes_fst, closeChild_fst, closeSlave_fst, closeMaster_fst]

/-- A session without live descriptors and without a child to terminate is
left alone by `close`, and no system call is issued. -/
theorem close_noop (s : Session) (a : CloseAnswers)
    (hm : s.m_masterFd < 0) (hs : s.m_slaveFd < 0)
    (hc : ¬ (0 < s.m_pid ∧ s.m_running = true))
    (h0 : s.m_interruptPipe0 < 0) (h1 : s.m_interruptPipe1 < 0) :
    close s a = ⟨true, s, []⟩ := by
  have e1 : closeWake s = [] := by simp [closeWake, not_le.mpr h1]
  have e2 : closeMaster s = (s, []) := by simp [closeMaster, not_le.mpr hm]
  have e3 : closeSlave s = (s, []) := by simp [closeSlave, not_le.mpr hs]
  have e4 : closeChild s a = (s, []) := by simp only [closeChild, if_neg hc]
  have e5 : closePipes s = (s, []) := by simp [closePipes, not_le.mpr h0, not_le.mpr h1]
  simp [close, e1, e2, e3, e4, e5]

/-- When the wait that observes the child's end reports a normal exit, `close`
records the exit code. -/
theorem closeChild_exitCode_of_exited (s : Session) (a : CloseAnswers)
    (hc : 0 < s.m_pid ∧ s.m_running = true)
    (hx : WIFEXITED (closeEscalate s.m_pid a).1 = true) :
    (close s a).state.m_exitCode = WEXITSTATUS (closeEscalate s.m_pid a).1 := by
  rw [close_state]
  simp only [if_pos hc, if_pos hx]

/-! ## The invariant is kept by every operation -/

theorem fdOf_ge (o : Option Nat) : -1 ≤ fdOf o := by
  cases o with
  | none => simp [fdOf]
  | some n => simp only [fdOf]; omega

theorem inv_construct (id : Int) (pa : Option (Nat × Nat)) : Inv (construct id pa).1 := by
  cases pa with
  | none => simp [construct, Inv]
  | some p => simp [construct, Inv]

theorem inv_close (s : Session) (a : CloseAnswers) (h : Inv s) : Inv (close s a).state := by
  obtain ⟨h1, h2, h3⟩ := h
  rw [close_state]
  refine ⟨?_, ?_, ?_⟩
  · dsimp only
    split_ifs with hc
    · simp
    · intro hr
      exact absurd ⟨h1 hr, hr⟩ hc
  · dsimp only; split_ifs <;> omega
  · dsimp only; split_ifs <;> omega

theorem inv_checkRunning (s : Session) (u : Int) (w : WaitOutcome) (h : Inv s) :
    Inv (checkRunning s u w).state := by
  obtain ⟨h1, h2, h3⟩ := h
  unfold checkRunning
  dsimp only
  split_ifs <;> simp_all [Inv]

theorem inv_resize (s : Session) (cols rows ans : Int) (h : Inv s) :
    Inv (resize s cols rows ans).state := by
  unfold resize
  split_ifs <;> simpa [Inv] using h

theorem read_state (s : Session) (maxBytes : Nat) (timeoutMs : Int) (script : List IterAnswer)
    (r : ReadRet) (h : read s maxBytes timeoutMs script = some r) : r.state = s := by
  unfold read at h
  split_ifs at h
  · cases h; rfl
  · dsimp only at h
    split at h
    · cases h
    · cases h; rfl

theorem inv_abortStart (s : Session) (calls : List OsCall) (a : StartAnswers) (h : Inv s) :
    Inv (abortStart s calls a).state := inv_close s a.closing h

theorem configurePty_masterFd (s : Session) (a : StartAnswers) :
    (configurePty s a).state.m_masterFd = s.m_masterFd := by
  unfold configurePty
  split_ifs <;> rfl

theorem inv_configurePty (s : Session) (a : StartAnswers) (h : Inv s) :
    Inv (configurePty s a).state := by
  unfold configurePty
  split_ifs <;> exact h

theorem inv_start (s : Session) (cols rows : Int) (a : StartAnswers) (r : Ret Bool)
    (hs : start s cols rows a = some r) (h : Inv s) : Inv r.state := by
  obtain ⟨h1, h2, h3⟩ := h
  have hm := fdOf_ge a.openpt
  have hsl := fdOf_ge a.openSlave
  have hf : a.fork < 0 ∨ a.fork = 0 ∨ 0 < a.fork := by omega
  cases hp : a.ptsname with
  | none =>
    simp only [start, hp] at hs
    split_ifs at hs <;> cases hs <;>
      first
        | exact ⟨h1, hm, h3⟩
        | exact inv_abortStart _ _ _ ⟨h1, hm, h3⟩
  | some slaveName =>
    simp only [start, hp] at hs
    split_ifs at hs with c1 c2 c3 c4 c5 c6 c7 <;> cases hs <;>
      first
        | exact ⟨h1, hm, h3⟩
        | exact inv_abortStart _ _ _ ⟨h1, hm, h3⟩
        | exact inv_abortStart _ _ _ ⟨h1, hm, hsl⟩
        | exact inv_abortStart _ _ _ (inv_configurePty _ a ⟨h1, hm, hsl⟩)
        | exact inv_resize _ _ _ _
            ⟨fun _ => by show 0 < a.fork; omega,
             by show -1 ≤ (configurePty _ a).state.m_masterFd
                rw [configurePty_masterFd]; exact hm,
             by show (-1 : Int) ≤ -1; omega⟩

theorem inv_step (s t : Session) (op : Op) (hs : step s op = some t) (h : Inv s) : Inv t := by
  cases op with
  | start cols rows a =>
    simp only [step, Option.map_eq_some'] at hs
    obtain ⟨r, hr, rfl⟩ := hs
    exact inv_start s cols rows a r hr h
  | write data ans =>
    simp only [step, Option.some.injEq] at hs
    subst hs
    unfold write
    split_ifs <;> exact h
  | read maxBytes timeoutMs script =>
    simp only [step, Option.map_eq_some'] at hs
    obtain ⟨r, hr, rfl⟩ := hs
    rw [read_state s maxBytes timeoutMs script r hr]
    exact h
  | resize cols rows ans =>
    simp only [step, Option.some.injEq] at hs
    subst hs
    exact inv_resize s cols rows ans h
  | sendSignal signum k1 k2 =>
    simp only [step, Option.some.injEq] at hs
    subst hs
    unfold sendSignal
    split_ifs <;> exact h
  | checkRunning u w =>
    simp only [step, Option.some.injEq] at hs
    subst hs
    exact inv_checkRunning s u w h
  | close a =>
    simp only [step, Option.some.injEq] at hs
    subst hs
    exact inv_close s a h

theorem inv_of_reachable (s : Session) (h : Reachable s) : Inv s := by
  induction h with
  | construct id pa => exact inv_construct id pa
  | step op _ hs ih => exact inv_step _ _ op hs ih

/-! ## Facts about `start` -/

theorem string_append_ne_empty (m x : String) (h : 0 < m.length) : m ++ x ≠ "" := by
  intro e
  have := congrArg String.length e
  rw [String.length_append] at this
  have h0 : "".length = 0 := rfl
  omega

theorem close_calls_master (s : Session) (a : CloseAnswers) (h : 0 ≤ s.m_masterFd) :
    OsCall.closeFd s.m_masterFd ∈ (close s a).calls := by
  have e : (closeMaster s).2 = [OsCall.closeFd s.m_masterFd] := by simp [closeMaster, h]
  simp [close, e]

theorem close_calls_slave (s : Session) (a : CloseAnswers) (h : 0 ≤ s.m_slaveFd) :
    OsCall.closeFd s.m_slaveFd ∈ (close s a).calls := by
  have e0 : (closeMaster s).1.m_slaveFd = s.m_slaveFd := by rw [closeMaster_fst]
  have e : (closeSlave (closeMaster s).1).2 = [OsCall.closeFd s.m_slaveFd] := by
    simp [closeSlave, e0, h]
  simp [close, e]

theorem abortStart_fresh (s : Session) (calls : List OsCall) (a : StartAnswers)
    (hp : s.m_pid = -1) (hr : s.m_running = false) :
    (abortStart s calls a).value = false ∧
    (abortStart s calls a).state.m_lastError = s.m_lastError ∧
    (abortStart s calls a).state.m_masterFd < 0 ∧
    (abortStart s calls a).state.m_slaveFd < 0 ∧
    (abortStart s calls a).state.m_running = false ∧
    (abortStart s calls a).state.m_pid = -1 ∧
    (0 ≤ s.m_masterFd → OsCall.closeFd s.m_masterFd ∈ (abortStart s calls a).calls) ∧
    (0 ≤ s.m_slaveFd → OsCall.closeFd s.m_slaveFd ∈ (abortStart s calls a).calls) := by
  have hc : ¬ (0 < s.m_pid ∧ s.m_running = true) := by simp [hr]
  refine ⟨rfl, ?_, ?_, ?_, ?_, ?_, ?_, ?_⟩
  · show (close s a.closing).state.m_lastError = _
    rw [close_state]
  · show (close s a.closing).state.m_masterFd < 0
    rw [close_state]; dsimp only; split_ifs <;> omega
  · show (close s a.closing).state.m_slaveFd < 0
    rw [close_state]; dsimp only; split_ifs <;> omega
  · show (close s a.closing).state.m_running = false
    rw [close_state]; dsimp only; rw [if_neg hc]; exact hr
  · show (close s a.closing).state.m_pid = -1
    rw [close_state]; dsimp only; rw [if_neg hc]; exact hp
  · intro h
    exact List.mem_append_right _ (close_calls_master s a.closing h)
  · intro h
    exact List.mem_append_right _ (close_calls_slave s a.closing h)

theorem construct_fields (id : Int) (pa : Option (Nat × Nat)) :
    (construct id pa).1.m_pid = -1 ∧ (construct id pa).1.m_running = false ∧
    (construct id pa).1.m_slaveFd = -1 ∧ (construct id pa).1.m_masterFd = -1 := by
  cases pa <;> simp [construct]

theorem read_invalid (s : Session) (h : s.m_masterFd < 0) (maxBytes : Nat) (timeoutMs : Int)
    (script : List IterAnswer) : read s maxBytes timeoutMs script = some ⟨[], s, [], []⟩ := by
  simp [read, h]

theorem write_invalid (s : Session) (h : s.m_masterFd < 0 ∨ s.m_running = false)
    (data : List Nat) (ans : Int) : write s data ans = ⟨-1, s, []⟩ := by
  simp [write, h]

theorem resize_invalid (s : Session) (h : s.m_masterFd < 0) (cols rows ans : Int) :
    resize s cols rows ans = ⟨false, s, []⟩ := by
  simp [resize, h]

theorem abortStart_failure (s : Session) (calls : List OsCall) (a : StartAnswers)
    (msg : String) (fds : List Int) (hp : s.m_pid = -1) (hr : s.m_running = false)
    (hmsg : s.m_lastError = msg)
    (hfds : ∀ fd ∈ fds, (fd = s.m_masterFd ∧ 0 ≤ s.m_masterFd) ∨
                        (fd = s.m_slaveFd ∧ 0 ≤ s.m_slaveFd)) :
    (abortStart s calls a).value = false ∧
    (abortStart s calls a).state.m_lastError = msg ∧
    (∀ fd ∈ fds, OsCall.closeFd fd ∈ (abortStart s calls a).calls) ∧
    (abortStart s calls a).state.m_masterFd < 0 ∧
    (abortStart s calls a).state.m_slaveFd < 0 ∧
    (abortStart s calls a).state.m_running = false ∧
    (abortStart s calls a).state.m_pid = -1 := by
  obtain ⟨k1, k2, k3, k4, k5, k6, k7, k8⟩ := abortStart_fresh s calls a hp hr
  refine ⟨k1, k2.trans hmsg, ?_, k3, k4, k5, k6⟩
  intro fd hfd
  rcases hfds fd hfd with ⟨e, h⟩ | ⟨e, h⟩
  · rw [e]; exact k7 h
  · rw [e]; exact k8 h

theorem fdOf_nonneg_of_not_neg (o : Option Nat) (h : ¬ fdOf o < 0) : 0 ≤ fdOf o := by omega

theorem start_failure_aux (s : Session) (cols rows : Int) (a : StartAnswers) (step : StartStep)
    (hp : s.m_pid = -1) (hr : s.m_running = false) (hsl : s.m_slaveFd = -1)
    (h : firstToFail a step) :
    ∃ r, start s cols rows a = some r ∧ r.value = false ∧
      r.state.m_lastError = step.name ++ " failed: " ++ a.strerror ∧
      (∀ fd ∈ openedBefore a step, OsCall.closeFd fd ∈ r.calls) ∧
      r.state.m_masterFd < 0 ∧ r.state.m_slaveFd < 0 ∧
      r.state.m_running = false ∧ r.state.m_pid = -1 := by
  obtain ⟨hf, hb⟩ := h
  cases step with
  | openpt =>
    simp only [StartStep.fails] at hf
    cases hst : start s cols rows a with
    | none => simp [start, hf] at hst
    | some r =>
      simp only [start, if_pos hf] at hst
      cases hst
      refine ⟨_, rfl, rfl, rfl, ?_, hf, ?_, hr, hp⟩
      · simp [openedBefore, StartStep.index]
      · show s.m_slaveFd < 0
        omega
  | grantpt =>
    simp only [StartStep.fails] at hf
    have h0 := hb .openpt (by decide)
    simp only [StartStep.fails] at h0
    cases hst : start s cols rows a with
    | none => simp [start, hf, h0] at hst
    | some r =>
      simp only [start, if_neg h0, if_pos hf] at hst
      cases hst
      refine ⟨_, rfl, abortStart_failure _ _ a _ _ hp hr rfl ?_⟩
      intro fd hfd
      simp [openedBefore, StartStep.index] at hfd
      exact Or.inl ⟨hfd, fdOf_nonneg_of_not_neg _ h0⟩
  | unlockpt =>
    simp only [StartStep.fails] at hf
    have h0 := hb .openpt (by decide)
    have h1 := hb .grantpt (by decide)
    simp only [StartStep.fails] at h0 h1
    cases hst : start s cols rows a with
    | none => simp [start, hf, h0, h1] at hst
    | some r =>
      simp only [start, if_neg h0, if_neg h1, if_pos hf] at hst
      cases hst
      refine ⟨_, rfl, abortStart_failure _ _ a _ _ hp hr rfl ?_⟩
      intro fd hfd
      simp [openedBefore, StartStep.index] at hfd
      exact Or.inl ⟨hfd, fdOf_nonneg_of_not_neg _ h0⟩
  | ptsname =>
    simp only [StartStep.fails] at hf
    have h0 := hb .openpt (by decide)
    have h1 := hb .grantpt (by decide)
    have h2 := hb .unlockpt (by decide)
    simp only [StartStep.fails] at h0 h1 h2
    cases hst : start s cols rows a with
    | none => simp [start, hf, h0, h1, h2] at hst
    | some r =>
      simp only [start, if_neg h0, if_neg h1, if_neg h2, hf] at hst
      cases hst
      refine ⟨_, rfl, abortStart_failure _ _ a _ _ hp hr rfl ?_⟩
      intro fd hfd
      simp [openedBefore, StartStep.index] at hfd
      exact Or.inl ⟨hfd, fdOf_nonneg_of_not_neg _ h0⟩
  | openSlave =>
    simp only [StartStep.fails] at hf
    have h0 := hb .openpt (by decide)
    have h1 := hb .grantpt (by decide)
    have h2 := hb .unlockpt (by decide)
    have h3 := hb .ptsname (by decide)
    simp only [StartStep.fails] at h0 h1 h2 h3
    obtain ⟨slaveName, hn⟩ := Option.ne_none_iff_exists'.mp h3
    cases hst : start s cols rows a with
    | none => simp [start, hf, h0, h1, h2, hn] at hst
    | some r =>
      simp only [start, if_neg h0, if_neg h1, if_neg h2, hn, if_pos hf] at hst
      cases hst
      refine ⟨_, rfl, abortStart_failure _ _ a _ _ hp hr rfl ?_⟩
      intro fd hfd
      simp [openedBefore, StartStep.index] at hfd
      exact Or.inl ⟨hfd, fdOf_nonneg_of_not_neg _ h0⟩
  | tcgetattr =>
    simp only [StartStep.fails] at hf
    have h0 := hb .openpt (by decide)
    have h1 := hb .grantpt (by decide)
    have h2 := hb .unlockpt (by decide)
    have h3 := hb .ptsname (by decide)
    have h4 := hb .openSlave (by decide)
    simp only [StartStep.fails] at h0 h1 h2 h3 h4
    obtain ⟨slaveName, hn⟩ := Option.ne_none_iff_exists'.mp h3
    cases hst : start s cols rows a with
    | none => simp [start, configurePty, hf, h0, h1, h2, hn, h4] at hst
    | some r =>
      simp only [start, configurePty, if_neg h0, if_neg h1, if_neg h2, hn, if_neg h4,
        if_pos hf, if_true] at hst
      cases hst
      refine ⟨_, rfl, abortStart_failure _ _ a _ _ hp hr rfl ?_⟩
      intro fd hfd
      simp [openedBefore, StartStep.index] at hfd
      rcases hfd with e | e
      · exact Or.inl ⟨e, fdOf_nonneg_of_not_neg _ h0⟩
      · exact Or.inr ⟨e, fdOf_nonneg_of_not_neg _ h4⟩
  | tcsetattr =>
    simp only [StartStep.fails] at hf
    have h0 := hb .openpt (by decide)
    have h1 := hb .grantpt (by decide)
    have h2 := hb .unlockpt (by decide)
    have h3 := hb .ptsname (by decide)
    have h4 := hb .openSlave (by decide)
    have h5 := hb .tcgetattr (by decide)
    simp only [StartStep.fails] at h0 h1 h2 h3 h4 h5
    obtain ⟨slaveName, hn⟩ := Option.ne_none_iff_exists'.mp h3
    cases hst : start s cols rows a with
    | none => simp [start, configurePty, hf, h0, h1, h2, hn, h4, h5] at hst
    | some r =>
      simp only [start, configurePty, if_neg h0, if_neg h1, if_neg h2, hn, if_neg h4,
        if_neg h5, if_pos hf, if_true] at hst
      cases hst
      refine ⟨_, rfl, abortStart_failure _ _ a _ _ hp hr rfl ?_⟩
      intro fd hfd
      simp [openedBefore, StartStep.index] at hfd
      rcases hfd with e | e
      · exact Or.inl ⟨e, fdOf_nonneg_of_not_neg _ h0⟩
      · exact Or.inr ⟨e, fdOf_nonneg_of_not_neg _ h4⟩
  | fork =>
    simp only [StartStep.fails] at hf
    have h0 := hb .openpt (by decide)
    have h1 := hb .grantpt (by decide)
    have h2 := hb .unlockpt (by decide)
    have h3 := hb .ptsname (by decide)
    have h4 := hb .openSlave (by decide)
    have h5 := hb .tcgetattr (by decide)
    have h6 := hb .tcsetattr (by decide)
    simp only [StartStep.fails] at h0 h1 h2 h3 h4 h5 h6
    obtain ⟨slaveName, hn⟩ := Option.ne_none_iff_exists'.mp h3
    cases hst : start s cols rows a with
    | none => simp [start, configurePty, hf, h0, h1, h2, hn, h4, h5, h6] at hst
    | some r =>
      simp only [start, configurePty, if_neg h0, if_neg h1, if_neg h2, hn, if_neg h4,
        if_neg h5, if_neg h6, if_pos hf, if_true, if_false] at hst
      cases hst
      refine ⟨_, rfl, abortStart_failure _ _ a _ _ hp hr rfl ?_⟩
      intro fd hfd
      simp [openedBefore, StartStep.index] at hfd
      rcases hfd with e | e
      · exact Or.inl ⟨e, fdOf_nonneg_of_not_neg _ h0⟩
      · exact Or.inr ⟨e, fdOf_nonneg_of_not_neg _ h4⟩

/-! ## Facts about `read` -/

theorem readLoop_done (s : Session) (cap : Nat) (tmo : Int) (script : List IterAnswer)
    (first : Bool) (st : LoopEnd) (h : ¬ st.totalRead < cap) :
    readLoop s cap tmo script first st = some st := by
  unfold readLoop
  simp [h]

theorem zeroWaits_nil : ZeroWaits [] := by
  intro c hc
  cases hc

theorem zeroWaits_readFd (fd : Int) (n : Nat) : ZeroWaits [OsCall.readFd fd n] := by
  intro c hc m p tv e
  simp only [List.mem_singleton] at hc
  subst hc
  cases e

theorem zeroWaits_cons_select (m : Int) (p : Option Int) (l : List OsCall) (h : ZeroWaits l) :
    ZeroWaits (OsCall.select m p (some (0, 0)) :: l) := by
  intro c hc m1 p1 tv e
  rcases List.mem_cons.mp hc with rfl | hc
  · cases e; rfl
  · exact h c hc m1 p1 tv e

/-- What the loop of `read` has done when it is left. -/
theorem readLoop_spec (s : Session) (cap : Nat) (tmo : Int) :
    ∀ (script : List IterAnswer) (first : Bool) (st e : LoopEnd),
      readLoop s cap tmo script first st = some e →
      (¬ st.totalRead < cap ∧ e = st) ∨
      (st.totalRead < cap ∧ ∃ rest,
        e.calls = st.calls ++
          OsCall.select s.m_masterFd (selectPipe s) (selectTimeout first tmo) :: rest ∧
        ZeroWaits rest ∧
        ((e.result = st.result ∧ e.totalRead = st.totalRead ∧ e.reads = st.reads) ∨
         (∃ rd, e.reads = st.reads ++ [⟨cap - st.totalRead, rd⟩] ∧ rd.n ≤ 0 ∧
            e.result = st.result ∧ e.totalRead = st.totalRead) ∨
         (∃ rd, e.reads = st.reads ++ [⟨cap - st.totalRead, rd⟩] ∧ 0 < rd.n ∧
            e.result = storeAt st.result st.totalRead rd.chunk ∧
            e.totalRead = st.totalRead + rd.n.toNat))) := by
  intro script
  induction script with
  | nil =>
    intro first st e h
    unfold readLoop at h
    split_ifs at h with hlt
    cases h
    exact Or.inl ⟨hlt, rfl⟩
  | cons it rest ih =>
    intro first st e h
    by_cases hlt : st.totalRead < cap
    · right
      refine ⟨hlt, ?_⟩
      unfold readLoop at h
      simp only [if_pos hlt] at h
      split_ifs at h with c1 c2 c3 c4 c5 c6
      · -- interrupted: the loop goes round again
        rcases ih false _ e h with ⟨hn, _⟩ | ⟨_, rest2, hc, hz, hr⟩
        · exact absurd hlt hn
        · refine ⟨OsCall.select s.m_masterFd (selectPipe s) (some (0, 0)) :: rest2, ?_, ?_, hr⟩
          · rw [hc]
            simp [selectTimeout]
          · exact zeroWaits_cons_select _ _ _ hz
      · cases h
        exact ⟨[], rfl, zeroWaits_nil, Or.inl ⟨rfl, rfl, rfl⟩⟩
      · cases h
        exact ⟨[], rfl, zeroWaits_nil, Or.inl ⟨rfl, rfl, rfl⟩⟩
      · cases h
        exact ⟨[], rfl, zeroWaits_nil, Or.inl ⟨rfl, rfl, rfl⟩⟩
      · cases h
        refine ⟨[OsCall.readFd s.m_masterFd (cap - st.totalRead)], ?_, zeroWaits_readFd _ _,
          Or.inr (Or.inl ⟨it.rd, rfl, c5, rfl, rfl⟩)⟩
        simp
      · cases h
        refine ⟨[OsCall.readFd s.m_masterFd (cap - st.totalRead)], ?_, zeroWaits_readFd _ _,
          Or.inr (Or.inr ⟨it.rd, rfl, by omega, rfl, rfl⟩)⟩
        simp
      · rw [readLoop_done] at h
        · cases h
          refine ⟨[OsCall.readFd s.m_masterFd (cap - st.totalRead)], ?_, zeroWaits_readFd _ _,
            Or.inr (Or.inr ⟨it.rd, rfl, by omega, rfl, rfl⟩)⟩
          simp
        · show ¬ (st.totalRead + it.rd.n.toNat < cap)
          omega
    · rw [readLoop_done s cap tmo _ first st hlt] at h
      cases h
      exact Or.inl ⟨hlt, rfl⟩

/-- The loop of `read` is left as soon as one `select` is not interrupted. -/
theorem readLoop_total (s : Session) (cap : Nat) (tmo : Int) :
    ∀ (script : List IterAnswer) (first : Bool) (st : LoopEnd),
      (∃ it ∈ script, ¬ it.interrupted) →
      (readLoop s cap tmo script first st).isSome = true := by
  intro script
  induction script with
  | nil =>
    intro first st h
    obtain ⟨it, hit, _⟩ := h
    cases hit
  | cons it rest ih =>
    intro first st h
    by_cases hlt : st.totalRead < cap
    · unfold readLoop
      simp only [if_pos hlt]
      split_ifs with c1 c2 c3 c4 c5 c6
      · apply ih
        obtain ⟨x, hx, hni⟩ := h
        rcases List.mem_cons.mp hx with rfl | hx
        · exact absurd ⟨c1, c2⟩ hni
        · exact ⟨x, hx, hni⟩
      · rfl
      · rfl
      · rfl
      · rfl
      · rfl
      · rw [readLoop_done]
        · rfl
        · show ¬ (st.totalRead + it.rd.n.toNat < cap)
          omega
    · rw [readLoop_done s cap tmo _ first st hlt]
      rfl

/-- A call of `read` returns as soon as one `select` is not interrupted. -/
theorem read_total (s : Session) (maxBytes : Nat) (tmo : Int) (script : List IterAnswer)
    (h : ∃ it ∈ script, ¬ it.interrupted) :
    (read s maxBytes tmo script).isSome = true := by
  unfold read
  split_ifs
  · rfl
  · dsimp only
    have ht := readLoop_total s (capBytes maxBytes) tmo script true
      ⟨List.replicate (capBytes maxBytes) 0, 0, [OsCall.gettimeofday], []⟩ h
    cases hr : readLoop s (capBytes maxBytes) tmo script true
      ⟨List.replicate (capBytes maxBytes) 0, 0, [OsCall.gettimeofday], []⟩ with
    | none => rw [hr] at ht; cases ht
    | some e => rfl

theorem capBytes_eq (maxBytes : Nat) : capBytes maxBytes = min maxBytes 65536 := by
  unfold capBytes
  split_ifs <;> omega

theorem readAnswer_chunk_of_nonpos (rd : ReadAnswer) (h : rd.n ≤ 0) : rd.chunk = [] := by
  cases rd with
  | error => rfl
  | bytes chunk =>
    simp only [ReadAnswer.n] at h
    have : chunk.length = 0 := by omega
    simpa [ReadAnswer.chunk] using this

theorem readAnswer_n_of_pos (rd : ReadAnswer) (h : 0 < rd.n) : rd.n.toNat = rd.chunk.length := by
  cases rd with
  | error => simp [ReadAnswer.n] at h
  | bytes chunk => simp [ReadAnswer.n, ReadAnswer.chunk]

theorem resizeString_zero (buf : List Nat) : resizeString buf 0 = [] := by
  simp [resizeString]

theorem selectTimeout_first (tmo : Int) :
    selectTimeout true tmo = if tmo < 0 then none else some (tmo / 1000, tmo % 1000 * 1000) := by
  unfold selectTimeout
  by_cases h : tmo < 0
  · simp [h]
  · have h0 : 0 ≤ tmo := by omega
    simp only [h, and_false, if_false, if_true]
    rw [Int.tdiv_eq_ediv h0 (by decide), Int.tmod_eq_emod h0 (by decide)]


/-! ## Facts about cancellation and escalation -/

/-- An iteration whose wait reports the self-pipe ready leaves the loop at once:
the wait itself is the only call, and the buffer is as it was. -/
theorem readLoop_cancel (s : Session) (cap : Nat) (tmo : Int) (it : IterAnswer)
    (rest : List IterAnswer) (first : Bool) (st : LoopEnd)
    (hlt : st.totalRead < cap) (hp : 0 ≤ s.m_interruptPipe0)
    (hrc : 0 ≤ it.sel.rc) (hready : it.sel.pipeReady = true) :
    readLoop s cap tmo (it :: rest) first st
      = some { st with calls := st.calls ++
          [OsCall.select s.m_masterFd (selectPipe s) (selectTimeout first tmo)] } := by
  have h1 : ¬ it.sel.rc < 0 := by omega
  unfold readLoop
  simp only [if_pos hlt, if_neg h1, hp, hready, and_self, if_true]

/-- After interrupted waits only, an iteration whose wait reports the self-pipe
ready ends the loop with nothing but the waits done. -/
theorem readLoop_cancel_after_interrupts (s : Session) (cap : Nat) (tmo : Int)
    (it : IterAnswer) (rest : List IterAnswer)
    (hp : 0 ≤ s.m_interruptPipe0) (hrc : 0 ≤ it.sel.rc) (hready : it.sel.pipeReady = true) :
    ∀ (pre : List IterAnswer) (first : Bool) (st : LoopEnd),
      (∀ x ∈ pre, x.interrupted) → st.totalRead < cap →
      readLoop s cap tmo (pre ++ it :: rest) first st
        = some { st with calls := st.calls ++ waitCalls s tmo first (pre.length + 1) } := by
  intro pre
  induction pre with
  | nil =>
    intro first st _ hlt
    exact readLoop_cancel s cap tmo it rest first st hlt hp hrc hready
  | cons x pre ih =>
    intro first st hpre hlt
    have hx : x.interrupted := hpre x (List.mem_cons_self _ _)
    have hrest : ∀ y ∈ pre, y.interrupted := fun y hy => hpre y (List.mem_cons_of_mem _ hy)
    rw [List.cons_append]
    unfold readLoop
    simp only [if_pos hlt, if_pos hx.1, if_pos hx.2]
    rw [ih false
      { st with calls := st.calls ++
          [OsCall.select s.m_masterFd (selectPipe s) (selectTimeout first tmo)] } hrest hlt]
    simp [waitCalls]

theorem killCalls_append (xs ys : List OsCall) :
    killCalls (xs ++ ys) = killCalls xs ++ killCalls ys := by
  induction xs with
  | nil => rfl
  | cons c cs ih => cases c <;> simp [killCalls, ih]

theorem blockingWaits_append (xs ys : List OsCall) :
    blockingWaits (xs ++ ys) = blockingWaits xs + blockingWaits ys := by
  induction xs with
  | nil => simp [blockingWaits]
  | cons c cs ih =>
    cases c with
    | waitpid p nohang =>
      cases nohang
      · show blockingWaits (cs ++ ys) + 1 = blockingWaits cs + 1 + blockingWaits ys
        rw [ih]
        omega
      · simp [blockingWaits, ih]
    | _ => simp [blockingWaits, ih]

/-- The calls of the escalation of `close`, by the answers of the two non-blocking
checks. -/
theorem closeEscalate_calls (childPid : Int) (a : CloseAnswers) (hpid : 0 < childPid) :
    (closeEscalate childPid a).2
      = [OsCall.kill childPid SIGHUP, OsCall.waitpid childPid true] ++
        (if a.w1 = .noChange then
          [OsCall.kill childPid SIGTERM, OsCall.usleep 100000, OsCall.waitpid childPid true] ++
          (if a.w2 = .noChange then
            [OsCall.kill childPid SIGKILL, OsCall.waitpid childPid false]
           else [])
         else []) := by
  have hne : ¬ childPid = 0 := by omega
  obtain ⟨u, w1, w2, w3⟩ := a
  cases w1 <;> cases w2 <;> simp [closeEscalate, waitpid, hne]

/-- The calls of `close` on a session with a child to terminate. -/
theorem close_calls_running (s : Session) (a : CloseAnswers)
    (hrun : s.m_running = true) (hpid : 0 < s.m_pid) :
    (close s a).calls
      = (closeWake s ++ (closeMaster s).2 ++ (closeSlave (closeMaster s).1).2) ++
        (closeEscalate s.m_pid a).2 ++
        (closePipes (closeChild (closeSlave (closeMaster s).1).1 a).1).2 := by
  have e1 : (closeSlave (closeMaster s).1).1.m_pid = s.m_pid := by
    rw [closeSlave_fst, closeMaster_fst]
  have e2 : (closeSlave (closeMaster s).1).1.m_running = s.m_running := by
    rw [closeSlave_fst, closeMaster_fst]
  have e3 : (closeChild (closeSlave (closeMaster s).1).1 a).2 = (closeEscalate s.m_pid a).2 := by
    unfold closeChild
    rw [if_pos (by rw [e1, e2]; exact ⟨hpid, hrun⟩), e1]
  show closeWake s ++ (closeMaster s).2 ++ (closeSlave (closeMaster s).1).2 ++
      (closeChild (closeSlave (closeMaster s).1).1 a).2 ++ _ = _
  rw [e3]

/-- The calls of `close` on a session that is not running. -/
theorem close_calls_stopped (s : Session) (a : CloseAnswers) (hrun : s.m_running = false) :
    (close s a).calls
      = (closeWake s ++ (closeMaster s).2 ++ (closeSlave (closeMaster s).1).2) ++
        (closePipes (closeChild (closeSlave (closeMaster s).1).1 a).1).2 := by
  have e2 : (closeSlave (closeMaster s).1).1.m_running = s.m_running := by
    rw [closeSlave_fst, closeMaster_fst]
  have e3 : (closeChild (closeSlave (closeMaster s).1).1 a).2 = [] := by
    unfold closeChild
    rw [if_neg (by rw [e2, hrun]; simp)]
  show closeWake s ++ (closeMaster s).2 ++ (closeSlave (closeMaster s).1).2 ++
      (closeChild (closeSlave (closeMaster s).1).1 a).2 ++ _ = _
  rw [e3, List.append_nil]

theorem closeWake_quiet (s : Session) :
    killCalls (closeWake s) = [] ∧ blockingWaits (closeWake s) = 0 := by
  unfold closeWake
  split_ifs <;> simp [killCalls, blockingWaits]

theorem closeMaster_quiet (s : Session) :
    killCalls (closeMaster s).2 = [] ∧ blockingWaits (closeMaster s).2 = 0 := by
  unfold closeMaster
  split_ifs <;> simp [killCalls, blockingWaits]

theorem closeSlave_quiet (s : Session) :
    killCalls (closeSlave s).2 = [] ∧ blockingWaits (closeSlave s).2 = 0 := by
  unfold closeSlave
  split_ifs <;> simp [killCalls, blockingWaits]

theorem closePipes_quiet (s : Session) :
    killCalls (closePipes s).2 = [] ∧ blockingWaits (closePipes s).2 = 0 := by
  unfold closePipes
  by_cases h0 : 0 ≤ s.m_interruptPipe0 <;> by_cases h1 : 0 ≤ s.m_interruptPipe1 <;>
    simp [h0, h1, killCalls, blockingWaits]

/-- Unless the child query fails, what `checkRunning` returns is the liveness flag
it leaves behind, on every session on which `running` implies `pid > 0`. -/
theorem checkRunning_value_eq_running (s : Session) (uninit : Int) (w : WaitOutcome)
    (hinv : s.m_running = true → 0 < s.m_pid) (hw : w ≠ .failed) :
    (checkRunning s uninit w).value = (checkRunning s uninit w).state.m_running := by
  unfold checkRunning
  by_cases hg : s.m_running = false ∨ s.m_pid ≤ 0
  · rw [if_pos hg]
    rcases hg with h | h
    · exact h.symm
    · cases hr : s.m_running with
      | false => rfl
      | true => have := hinv hr; omega
  · rw [if_neg hg]
    have hrun : s.m_running = true := by
      cases hr : s.m_running with
      | false => exact absurd (Or.inl hr) hg
      | true => rfl
    have hne : ¬ s.m_pid = 0 := by omega
    cases w with
    | noChange => simp [waitpid, hrun]
    | reaped st =>
      simp only [waitpid, if_neg hne, if_true]
      split_ifs <;> rfl
    | failed => exact absurd rfl hw

/-! ## The claims -/

/-- C1: on a session with `running = true` and `pid > 0`, when the non-blocking
child query reaps the child, `checkRunning` leaves `isRunning()` false; if
the status word reports a normal exit, `exitCode()` is the exit code, which
is not negative; if it reports termination by a signal, `exitCode()` is the
negated signal number, which is negative. -/
theorem checkRunning_exit_status_encoding (s : Session) (uninit st : Int)
    (hrun : s.m_running = true) (hpid : 0 < s.m_pid) :
    isRunning (checkRunning s uninit (.reaped st)).state = false ∧
    (checkRunning s uninit (.reaped st)).value = false ∧
    (∀ c : Int, WIFEXITED st = true → WEXITSTATUS st = c →
      exitCode (checkRunning s uninit (.reaped st)).state = c ∧ 0 ≤ c) ∧
    (∀ N : Int, WIFSIGNALED st = true → WTERMSIG st = N →
      exitCode (checkRunning s uninit (.reaped st)).state = -N ∧ 0 < N) := by
  have hg : ¬ (s.m_running = false ∨ s.m_pid ≤ 0) := by
    simp [hrun, hpid]
  have hne : ¬ (s.m_pid = 0) := by omega
  refine ⟨?_, ?_, ?_, ?_⟩
  · simp only [checkRunning, if_neg hg, waitpid, if_neg hne, isRunning]
    split_ifs <;> rfl
  · simp only [checkRunning, if_neg hg, waitpid, if_neg hne]
    split_ifs <;> rfl
  · intro c hx hc
    refine ⟨?_, ?_⟩
    · simp only [checkRunning, if_neg hg, waitpid, if_neg hne, exitCode, hx, if_true]
      exact hc
    · rw [← hc]
      unfold WEXITSTATUS
      omega
  · intro N hsig hN
    have hnx : WIFEXITED st = false := by
      simp only [WIFSIGNALED, Bool.and_eq_true, bne_iff_ne, ne_eq] at hsig
      simp only [WIFEXITED, beq_eq_false_iff_ne, ne_eq]
      exact hsig.1
    refine ⟨?_, ?_⟩
    · simp only [checkRunning, if_neg hg, waitpid, if_neg hne, exitCode, hnx, hsig, if_true]
      simp [hN]
    · rw [← hN]
      simp only [WIFSIGNALED, Bool.and_eq_true, bne_iff_ne, ne_eq] at hsig
      unfold WTERMSIG
      omega

theorem checkRunning_exit_status_encoding_witness :
    sampleRunning.m_running = true ∧ 0 < sampleRunning.m_pid ∧
    isRunning (checkRunning sampleRunning 0 (.reaped 32512)).state = false ∧
    exitCode (checkRunning sampleRunning 0 (.reaped 32512)).state = 127 ∧
    exitCode (checkRunning sampleRunning 0 (.reaped 9)).state = -9 :=
  ⟨by decide, by decide,
   (checkRunning_exit_status_encoding sampleRunning 0 32512 (by decide) (by decide)).1,
   ((checkRunning_exit_status_encoding sampleRunning 0 32512 (by decide) (by decide)).2.2.1
      127 (by decide) (by decide)).1,
   ((checkRunning_exit_status_encoding sampleRunning 0 9 (by decide) (by decide)).2.2.2
      9 (by decide) (by decide)).1⟩

/-- C2: `close` on a running session whose child dies of the forced kill
(signal 9, observed by the blocking wait) leaves `exitCode()` at its old
value -1, where `checkRunning` records -9 for the same status word. -/
theorem close_drops_signal_status :
    sampleRunning.m_running = true ∧ exitCode sampleRunning = -1 ∧
    WIFSIGNALED 9 = true ∧ WTERMSIG 9 = 9 ∧
    (closeEscalate sampleRunning.m_pid ⟨0, .noChange, .noChange, .reaped 9⟩).1 = 9 ∧
    exitCode (close sampleRunning ⟨0, .noChange, .noChange, .reaped 9⟩).state = -1 ∧
    exitCode (checkRunning sampleRunning 0 (.reaped 9)).state = -9 := by
  decide

/-- C3: on every session reachable from construction through the public
operations, whatever the operating system answers, `close` leaves
`isRunning()` false and the master and slave handles at -1; a following
`write` returns -1, a following `resize` returns false and a following
`read` returns the empty byte sequence, each without any system call. -/
theorem state_after_close (s : Session) (hs : Reachable s) (a : CloseAnswers) :
    isRunning (close s a).state = false ∧
    (close s a).state.m_masterFd = -1 ∧
    (close s a).state.m_slaveFd = -1 ∧
    (∀ data ans, write (close s a).state data ans = ⟨-1, (close s a).state, []⟩) ∧
    (∀ cols rows ans, resize (close s a).state cols rows ans = ⟨false, (close s a).state, []⟩) ∧
    (∀ maxBytes timeoutMs script,
      read (close s a).state maxBytes timeoutMs script
        = some ⟨[], (close s a).state, [], []⟩) := by
  obtain ⟨h1, h2, h3⟩ := inv_of_reachable s hs
  have hm : (close s a).state.m_masterFd = -1 := by
    rw [close_state]; dsimp only; split_ifs <;> omega
  have hsl : (close s a).state.m_slaveFd = -1 := by
    rw [close_state]; dsimp only; split_ifs <;> omega
  have hr : (close s a).state.m_running = false := by
    rw [close_state]; dsimp only
    split_ifs with hc
    · rfl
    · cases hrun : s.m_running with
      | false => rfl
      | true => exact absurd ⟨h1 hrun, hrun⟩ hc
  have hneg : (close s a).state.m_masterFd < 0 := by omega
  exact ⟨hr, hm, hsl, fun data ans => write_invalid _ (Or.inl hneg) data ans,
    fun cols rows ans => resize_invalid _ hneg cols rows ans,
    fun maxBytes timeoutMs script => read_invalid _ hneg maxBytes timeoutMs script⟩

theorem state_after_close_witness :
    Reachable sampleRunning ∧
    isRunning (close sampleRunning sampleAnswers.closing).state = false ∧
    (close sampleRunning sampleAnswers.closing).state.m_masterFd = -1 ∧
    (write (close sampleRunning sampleAnswers.closing).state [108, 115, 10] 3).value = -1 :=
  have hreach : Reachable sampleRunning :=
    Reachable.step (.start 80 24 sampleAnswers) (Reachable.construct 1 (some (3, 4)))
      (by decide)
  have h := state_after_close sampleRunning hreach sampleAnswers.closing
  ⟨hreach, h.1, h.2.1, by rw [h.2.2.2.1]⟩

/-- C4: a second `close` right after a first one returns true, leaves the
session exactly as the first call left it, and issues no system call at
all (no signal, no wait, no descriptor closed). -/
theorem close_idempotent (s : Session) (a b : CloseAnswers) :
    close (close s a).state b = ⟨true, (close s a).state, []⟩ := by
  apply close_noop
  · rw [close_state]; dsimp only; split_ifs <;> omega
  · rw [close_state]; dsimp only; split_ifs <;> omega
  · rw [close_state]; dsimp only
    split_ifs with h
    · simp
    · exact h
  · rw [close_state]; dsimp only; split_ifs <;> omega
  · rw [close_state]; dsimp only; split_ifs <;> omega

/-- C5: on a freshly constructed session, when every step of `start` succeeds
and `fork` returns the child pid `p > 0`, `start` returns true; right
afterwards `isRunning()` is true, `pid()` is `p`, the master handle is the
descriptor that was opened, and the slave descriptor has been closed and
the slave handle set to -1, whatever the geometry call answered. -/
theorem start_success (id : Int) (pipeAns : Option (Nat × Nat)) (cols rows : Int)
    (a : StartAnswers) (m sl : Nat) (slaveName : String) (p : Int)
    (h1 : a.openpt = some m) (h2 : a.grantpt = 0) (h3 : a.unlockpt = 0)
    (h4 : a.ptsname = some slaveName) (h5 : a.openSlave = some sl)
    (h6 : a.tcgetattr = 0) (h7 : a.tcsetattr = 0) (h8 : a.fork = p) (hp : 0 < p) :
    ∃ r, start (construct id pipeAns).1 cols rows a = some r ∧
      r.value = true ∧ isRunning r.state = true ∧ pid r.state = p ∧ 0 < pid r.state ∧
      r.state.m_masterFd = m ∧ 0 ≤ r.state.m_masterFd ∧
      r.state.m_slaveFd = -1 ∧ OsCall.closeFd sl ∈ r.calls := by
  have hm : ¬ ((m : Int) < 0) := by omega
  have hs : ¬ ((sl : Int) < 0) := by omega
  have hf1 : ¬ (p < 0) := by omega
  have hf2 : ¬ (p = 0) := by omega
  cases hst : start (construct id pipeAns).1 cols rows a with
  | none =>
    simp only [start, configurePty, h1, h2, h3, h4, h5, h6, h7, h8, fdOf, if_neg hm,
      if_neg hs, if_neg hf1, if_neg hf2, ne_eq, not_true_eq_false, if_false, resize,
      Bool.true_eq_false, reduceCtorEq] at hst
  | some r =>
    simp only [start, configurePty, h1, h2, h3, h4, h5, h6, h7, h8, fdOf, if_neg hm,
      if_neg hs, if_neg hf1, if_neg hf2, ne_eq, not_true_eq_false, if_false, resize,
      Bool.true_eq_false] at hst
    by_cases hi : a.ioctl = -1
    · simp only [hi, not_true_eq_false, if_false, Option.some.injEq] at hst
      subst hst
      exact ⟨_, rfl, rfl, rfl, rfl, hp, rfl, by show (0 : Int) ≤ m; omega, rfl, by simp⟩
    · simp only [hi, not_false_eq_true, if_true, Option.some.injEq] at hst
      subst hst
      exact ⟨_, rfl, rfl, rfl, rfl, hp, rfl, by show (0 : Int) ≤ m; omega, rfl, by simp⟩

theorem start_success_witness :
    ∃ r, start (construct 1 (some (3, 4))).1 80 24 { sampleAnswers with ioctl := -1 } = some r ∧
      r.value = true ∧ isRunning r.state = true ∧ pid r.state = 1234 ∧ 0 < pid r.state ∧
      r.state.m_masterFd = (5 : Nat) ∧ 0 ≤ r.state.m_masterFd ∧
      r.state.m_slaveFd = -1 ∧ OsCall.closeFd (6 : Nat) ∈ r.calls :=
  start_success 1 (some (3, 4)) 80 24 { sampleAnswers with ioctl := -1 } 5 6 "/dev/ttys003" 1234
    rfl rfl rfl rfl rfl rfl rfl rfl (by decide)

/-- C6: on a freshly constructed session, when a step of `start` is the first
to fail, `start` returns false, `lastError()` is the non-empty text that
names the step (followed by the system's error text), every descriptor
opened earlier in the call has been closed, the master and slave handles
are invalid, `isRunning()` is false and `pid()` is -1; a following `read`
returns the empty sequence and a following `write` returns -1. -/
theorem start_failure_leaves_no_partial_state (id : Int) (pipeAns : Option (Nat × Nat))
    (cols rows : Int) (a : StartAnswers) (step : StartStep) (h : firstToFail a step) :
    ∃ r, start (construct id pipeAns).1 cols rows a = some r ∧ r.value = false ∧
      lastError r.state = step.name ++ " failed: " ++ a.strerror ∧
      lastError r.state ≠ "" ∧
      (∀ fd ∈ openedBefore a step, OsCall.closeFd fd ∈ r.calls) ∧
      r.state.m_masterFd < 0 ∧ r.state.m_slaveFd < 0 ∧
      isRunning r.state = false ∧ pid r.state = -1 ∧
      (∀ maxBytes timeoutMs script,
        read r.state maxBytes timeoutMs script = some ⟨[], r.state, [], []⟩) ∧
      (∀ data ans, write r.state data ans = ⟨-1, r.state, []⟩) := by
  obtain ⟨c1, c2, c3, _⟩ := construct_fields id pipeAns
  obtain ⟨r, e, k1, k2, k3, k4, k5, k6, k7⟩ :=
    start_failure_aux (construct id pipeAns).1 cols rows a step c1 c2 c3 h
  refine ⟨r, e, k1, k2, ?_, k3, k4, k5, k6, k7,
    fun maxBytes timeoutMs script => read_invalid _ k4 maxBytes timeoutMs script,
    fun data ans => write_invalid _ (Or.inl k4) data ans⟩
  show r.state.m_lastError ≠ ""
  rw [k2, String.append_assoc]
  apply string_append_ne_empty
  cases step <;> decide

theorem start_failure_leaves_no_partial_state_witness :
    firstToFail { sampleAnswers with tcsetattr := -1 } .tcsetattr ∧
    ∃ r, start (construct 1 (some (3, 4))).1 80 24 { sampleAnswers with tcsetattr := -1 } = some r ∧
      r.value = false ∧ lastError r.state = "tcsetattr failed: Input/output error" ∧
      OsCall.closeFd 5 ∈ r.calls ∧ OsCall.closeFd 6 ∈ r.calls ∧
      r.state.m_masterFd < 0 ∧ isRunning r.state = false ∧ pid r.state = -1 :=
  have hf : firstToFail { sampleAnswers with tcsetattr := -1 } .tcsetattr :=
    by decide
  have ⟨r, e, _, k2, _, k3, k4, _, k5, k6, _⟩ :=
    start_failure_leaves_no_partial_state 1 (some (3, 4)) 80 24
      { sampleAnswers with tcsetattr := -1 } .tcsetattr hf
  ⟨hf, r, e, by assumption, by rw [k2]; decide, k3 5 (by decide), k3 6 (by decide), k4, k5, k6⟩

/-- C7: `write` returns -1 without any system call exactly when the master
handle is invalid or the session is not running; otherwise it issues the
one `::write` of the given bytes on the master handle and returns that
call's result as it is; the session is unchanged in every case. -/
theorem write_guarded_pass_through (s : Session) (data : List Nat) (ans : Int) :
    (((write s data ans).value = -1 ∧ (write s data ans).calls = [])
        ↔ (s.m_masterFd < 0 ∨ s.m_running = false)) ∧
    (¬ (s.m_masterFd < 0 ∨ s.m_running = false) →
        (write s data ans).calls = [.writeFd s.m_masterFd data] ∧
        (write s data ans).value = ans) ∧
    (write s data ans).state = s := by
  unfold write
  by_cases h : s.m_masterFd < 0 ∨ s.m_running = false
  · simp [h]
  · simp [h]

/-- C8: a call of `read` returns as soon as one of its waits is not interrupted;
when every `::read` delivers at most as many bytes as it was asked for, the
bytes that `read` returns are the chunks delivered by its `::read` calls,
in order, with nothing added and nothing dropped; every `::read` is asked
for a positive count, the capacity that remains; and the result is at most
`min(maxBytes, 65536)` bytes long. -/
theorem read_returns_accumulated_bytes (s : Session) (maxBytes : Nat) (timeoutMs : Int)
    (script : List IterAnswer) :
    ((∃ it ∈ script, ¬ it.interrupted) →
      (read s maxBytes timeoutMs script).isSome = true) ∧
    ∀ r, read s maxBytes timeoutMs script = some r →
      (∀ e ∈ r.reads, e.answer.n ≤ (e.asked : Int)) →
      r.value = deliveredBytes r.reads ∧
      askedRemaining (min maxBytes 65536) 0 r.reads ∧
      r.value.length ≤ min maxBytes 65536 := by
  refine ⟨read_total s maxBytes timeoutMs script, ?_⟩
  intro r h hos
  unfold read at h
  split_ifs at h with hm
  · cases h
    exact ⟨rfl, trivial, Nat.zero_le _⟩
  · dsimp only at h
    split at h
    · cases h
    · rename_i e he
      cases h
      dsimp only at hos ⊢
      rw [← capBytes_eq]
      rcases readLoop_spec s _ timeoutMs script true _ e he with ⟨_, rfl⟩ | ⟨hlt, rest, _, _, hr⟩
      · dsimp only
        rw [resizeString_zero]
        exact ⟨rfl, trivial, Nat.zero_le _⟩
      · dsimp only at hlt hr
        rcases hr with ⟨h1, h2, h3⟩ | ⟨rd, h3, hn, h1, h2⟩ | ⟨rd, h3, hn, h1, h2⟩
        · rw [h1, h2, h3, resizeString_zero]
          exact ⟨rfl, trivial, Nat.zero_le _⟩
        · rw [h1, h2, h3, resizeString_zero]
          have hc := readAnswer_chunk_of_nonpos rd hn
          refine ⟨?_, ?_, Nat.zero_le _⟩
          · simp [deliveredBytes, hc]
          · simp [askedRemaining, hlt]
        · have hle : rd.n ≤ ((capBytes maxBytes - 0 : Nat) : Int) :=
            hos ⟨capBytes maxBytes - 0, rd⟩ (by rw [h3]; simp)
          have hlen := readAnswer_n_of_pos rd hn
          have hcl : rd.chunk.length ≤ capBytes maxBytes := by omega
          rw [h1, h2, h3, hlen]
          have hv : resizeString (storeAt (List.replicate (capBytes maxBytes) 0) 0 rd.chunk)
              (0 + rd.chunk.length) = rd.chunk := by
            simp [resizeString, storeAt]
          rw [hv]
          refine ⟨?_, ?_, hcl⟩
          · simp [deliveredBytes]
          · simp [askedRemaining, hlt]

theorem read_returns_accumulated_bytes_witness :
    ∃ r, read sampleRunning 16 1500
        [⟨⟨-1, true, false⟩, .error⟩, ⟨⟨1, false, false⟩, .bytes [104, 105]⟩] = some r ∧
      r.reads = [⟨16, .bytes [104, 105]⟩] ∧ r.value = [104, 105] ∧
      r.value.length ≤ min 16 65536 :=
  have hr : read sampleRunning 16 1500
        [⟨⟨-1, true, false⟩, .error⟩, ⟨⟨1, false, false⟩, .bytes [104, 105]⟩]
      = some ⟨[104, 105], sampleRunning,
          [.gettimeofday, .select 5 (some 3) (some (1, 500000)),
           .select 5 (some 3) (some (0, 0)), .readFd 5 16],
          [⟨16, .bytes [104, 105]⟩]⟩ := by
    decide
  have h := (read_returns_accumulated_bytes sampleRunning 16 1500 _).2 _ hr (by decide)
  ⟨_, hr, rfl, h.1, h.2.2⟩

/-- C9: a `read` with `timeoutMs = -1` whose first, unbounded wait is interrupted
by a signal retries with a zero timeout; when that poll finds nothing
(`select` returns 0, the self-pipe is not ready) the call returns the empty
sequence although no byte has arrived, nothing was cancelled and nothing
failed. -/
theorem read_negative_timeout_polls_after_interrupt :
    read sampleRunning 10 (-1)
        [⟨⟨-1, true, false⟩, .error⟩, ⟨⟨0, false, false⟩, .error⟩]
      = some ⟨[], sampleRunning,
          [.gettimeofday, .select 5 (some 3) none, .select 5 (some 3) (some (0, 0))], []⟩ := by
  decide

/-- C10: in a `read` that enters its loop (valid master handle, `maxBytes > 0`),
which returns as soon as one of its waits is not interrupted, the first
readiness wait is unbounded when `timeoutMs < 0` and otherwise has the
timeout `timeoutMs div 1000` seconds and `(timeoutMs mod 1000) * 1000`
microseconds, which is `timeoutMs` milliseconds with the microseconds in
`[0, 1000000)`; every later wait of the call has a zero timeout, in
particular every wait that follows a `::read`. -/
theorem read_wait_schedule (s : Session) (maxBytes : Nat) (timeoutMs : Int)
    (script : List IterAnswer) (hm : 0 ≤ s.m_masterFd) (hmax : 0 < maxBytes) :
    ((∃ it ∈ script, ¬ it.interrupted) →
      (read s maxBytes timeoutMs script).isSome = true) ∧
    ∀ r, read s maxBytes timeoutMs script = some r →
      ∃ rest,
        r.calls = OsCall.gettimeofday ::
          OsCall.select s.m_masterFd (selectPipe s)
            (if timeoutMs < 0 then none
             else some (timeoutMs / 1000, timeoutMs % 1000 * 1000)) :: rest ∧
        (0 ≤ timeoutMs →
          0 ≤ timeoutMs % 1000 * 1000 ∧ timeoutMs % 1000 * 1000 < 1000000 ∧
          timeoutMs / 1000 * 1000000 + timeoutMs % 1000 * 1000 = timeoutMs * 1000) ∧
        ZeroWaits rest ∧
        (∀ pre post fd n, r.calls = pre ++ OsCall.readFd fd n :: post → ZeroWaits post) := by
  refine ⟨read_total s maxBytes timeoutMs script, ?_⟩
  intro r h
  unfold read at h
  rw [if_neg (by omega)] at h
  dsimp only at h
  split at h
  · cases h
  · rename_i e he
    cases h
    dsimp only
    have hcap : 0 < capBytes maxBytes := by rw [capBytes_eq]; omega
    rcases readLoop_spec s _ timeoutMs script true _ e he with ⟨hn, _⟩ | ⟨_, rest, hc, hz, _⟩
    · exact absurd hcap hn
    · dsimp only at hc
      rw [selectTimeout_first] at hc
      refine ⟨rest, hc, ?_, hz, ?_⟩
      · intro h0
        omega
      · intro pre post fd n hsplit
        rw [hc] at hsplit
        cases pre with
        | nil => cases hsplit
        | cons a pre1 =>
          cases pre1 with
          | nil => cases hsplit
          | cons b pre2 =>
            simp only [List.cons_append, List.singleton_append, List.cons.injEq] at hsplit
            obtain ⟨_, _, rfl⟩ := hsplit
            intro c hcm
            exact hz c (by simp [hcm])

theorem read_wait_schedule_witness :
    0 ≤ sampleRunning.m_masterFd ∧
    ∃ rest,
      [OsCall.gettimeofday, .select 5 (some 3) (some (1, 500000)),
        .select 5 (some 3) (some (0, 0)), .readFd 5 16]
        = OsCall.gettimeofday :: OsCall.select 5 (some 3) (some (1, 500000)) :: rest ∧
      ZeroWaits rest :=
  have hr : read sampleRunning 16 1500
        [⟨⟨-1, true, false⟩, .error⟩, ⟨⟨1, false, false⟩, .bytes [104, 105]⟩]
      = some ⟨[104, 105], sampleRunning,
          [.gettimeofday, .select 5 (some 3) (some (1, 500000)),
           .select 5 (some 3) (some (0, 0)), .readFd 5 16],
          [⟨16, .bytes [104, 105]⟩]⟩ := by
    decide
  have ⟨rest, h1, _, h3, _⟩ :=
    (read_wait_schedule sampleRunning 16 1500 _ (by decide) (by decide)).2 _ hr
  ⟨by decide, rest, h1, h3⟩

/-- C11: in an iteration of `read` whose readiness wait reports the read end of
the cancellation channel ready (also when the wait reports more than one
descriptor ready), the loop is left at once: the wait is the last call,
no `::read` is issued, and the buffer holds what it held before.  Such an
iteration is reached only after interrupted waits, so `read` returns the
bytes accumulated before it, which are none. -/
theorem read_cancellation (s : Session) (maxBytes : Nat) (timeoutMs : Int)
    (pre : List IterAnswer) (it : IterAnswer) (rest : List IterAnswer)
    (hm : 0 ≤ s.m_masterFd) (hmax : 0 < maxBytes)
    (hpre : ∀ x ∈ pre, x.interrupted)
    (hp : 0 ≤ s.m_interruptPipe0) (hrc : 0 ≤ it.sel.rc) (hready : it.sel.pipeReady = true) :
    read s maxBytes timeoutMs (pre ++ it :: rest)
      = some ⟨[], s, OsCall.gettimeofday :: waitCalls s timeoutMs true (pre.length + 1), []⟩ ∧
    ∀ (first : Bool) (st : LoopEnd), st.totalRead < capBytes maxBytes →
      readLoop s (capBytes maxBytes) timeoutMs (it :: rest) first st
        = some { st with calls := st.calls ++
            [OsCall.select s.m_masterFd (selectPipe s) (selectTimeout first timeoutMs)] } := by
  have hcap : 0 < capBytes maxBytes := by rw [capBytes_eq]; omega
  refine ⟨?_, fun first st hlt =>
    readLoop_cancel s _ timeoutMs it rest first st hlt hp hrc hready⟩
  unfold read
  rw [if_neg (by omega)]
  dsimp only
  rw [readLoop_cancel_after_interrupts s _ timeoutMs it rest hp hrc hready pre true _ hpre hcap]
  dsimp only
  rw [resizeString_zero]
  rfl

theorem read_cancellation_witness :
    read sampleRunning 16 (-1)
        [⟨⟨-1, true, false⟩, .error⟩, ⟨⟨2, false, true⟩, .bytes [104, 105]⟩,
         ⟨⟨1, false, false⟩, .bytes [33]⟩]
      = some ⟨[], sampleRunning,
          [.gettimeofday, .select 5 (some 3) none, .select 5 (some 3) (some (0, 0))], []⟩ :=
  (read_cancellation sampleRunning 16 (-1) [⟨⟨-1, true, false⟩, .error⟩]
    ⟨⟨2, false, true⟩, .bytes [104, 105]⟩ [⟨⟨1, false, false⟩, .bytes [33]⟩]
    (by decide) (by decide) (by decide) (by decide) (by decide) rfl).1

/-- C12: on a running session whose non-blocking child query fails (`waitpid`
returns -1), `checkRunning` returns false and leaves the session as it
was, so `isRunning()` is still true after the call. -/
theorem checkRunning_false_but_still_running :
    sampleRunning.m_running = true ∧ 0 < sampleRunning.m_pid ∧
    (checkRunning sampleRunning 0 .failed).value = false ∧
    isRunning (checkRunning sampleRunning 0 .failed).state = true ∧
    (checkRunning sampleRunning 0 .failed).state = sampleRunning := by
  decide

/-- C13: in every session reachable from construction through the public
operations, whatever the operating system answers, `running = true`
implies `pid > 0`. -/
theorem running_implies_positive_pid (s : Session) (hs : Reachable s)
    (hrun : s.m_running = true) : 0 < s.m_pid :=
  (inv_of_reachable s hs).1 hrun

theorem running_implies_positive_pid_witness :
    Reachable sampleRunning ∧ sampleRunning.m_running = true ∧ 0 < sampleRunning.m_pid :=
  have hreach : Reachable sampleRunning :=
    Reachable.step (.start 80 24 sampleAnswers) (Reachable.construct 1 (some (3, 4)))
      (by decide)
  ⟨hreach, rfl, running_implies_positive_pid sampleRunning hreach rfl⟩

/-- C14: after `checkRunning` has reaped the child of a running session (normal
exit with code 0), `isRunning()` is false but `pid()` is still the child's
pid 1234, and a following `close` leaves it so; `close` on the running
session, the sibling path, does set `pid()` to -1. -/
theorem checkRunning_keeps_pid_after_reaping :
    isRunning (checkRunning sampleRunning 0 (.reaped 0)).state = false ∧
    pid (checkRunning sampleRunning 0 (.reaped 0)).state = 1234 ∧
    pid (close (checkRunning sampleRunning 0 (.reaped 0)).state
      ⟨0, .noChange, .noChange, .noChange⟩).state = 1234 ∧
    pid (close sampleRunning ⟨0, .reaped 0, .noChange, .noChange⟩).state = -1 := by
  decide

/-- C15: `close` on a session with `running = true` and `pid > 0` sends the
child a non-empty initial part of hang-up, terminate, kill, and nothing
else: terminate exactly when the first non-blocking check reported the
child still alive, kill exactly when the second did so too, and then the
kill is followed at once by the one blocking wait of the call; after a
check that reported the child reaped no signal is sent.  On a session
that is not running `close` sends no signal. -/
theorem close_escalation_order (s : Session) (a : CloseAnswers) :
    (s.m_running = true → 0 < s.m_pid →
      killCalls (close s a).calls
        = (escalation.take
            (if a.w1 = .noChange then (if a.w2 = .noChange then 3 else 2) else 1)).map
            (fun sig => (s.m_pid, sig)) ∧
      (∃ n, 0 < n ∧ killCalls (close s a).calls
        = (escalation.take n).map (fun sig => (s.m_pid, sig))) ∧
      ((s.m_pid, SIGTERM) ∈ killCalls (close s a).calls → a.w1 = .noChange) ∧
      ((s.m_pid, SIGKILL) ∈ killCalls (close s a).calls →
        a.w1 = .noChange ∧ a.w2 = .noChange ∧ blockingWaits (close s a).calls = 1 ∧
        ∃ before after,
          (close s a).calls
            = before ++ OsCall.kill s.m_pid SIGKILL :: OsCall.waitpid s.m_pid false :: after ∧
          killCalls after = []) ∧
      ((s.m_pid, SIGKILL) ∉ killCalls (close s a).calls → blockingWaits (close s a).calls = 0) ∧
      (∀ st, a.w1 = .reaped st → killCalls (close s a).calls = [(s.m_pid, SIGHUP)]) ∧
      (∀ st, a.w1 = .noChange → a.w2 = .reaped st →
        killCalls (close s a).calls = [(s.m_pid, SIGHUP), (s.m_pid, SIGTERM)])) ∧
    (s.m_running = false → killCalls (close s a).calls = []) := by
  refine ⟨?_, ?_⟩
  · intro hrun hpid
    have hc := close_calls_running s a hrun hpid
    have he := closeEscalate_calls s.m_pid a hpid
    have q1 := closeWake_quiet s
    have q2 := closeMaster_quiet s
    have q3 := closeSlave_quiet (closeMaster s).1
    have q4 := closePipes_quiet (closeChild (closeSlave (closeMaster s).1).1 a).1
    have hk : killCalls (close s a).calls = killCalls (closeEscalate s.m_pid a).2 := by
      rw [hc]
      simp only [killCalls_append, q1.1, q2.1, q3.1, q4.1, List.nil_append, List.append_nil]
    have hb : blockingWaits (close s a).calls = blockingWaits (closeEscalate s.m_pid a).2 := by
      rw [hc]
      simp only [blockingWaits_append, q1.2, q2.2, q3.2, q4.2, Nat.zero_add, Nat.add_zero]
    by_cases h1 : a.w1 = .noChange
    · by_cases h2 : a.w2 = .noChange
      · have hk3 : killCalls (close s a).calls
            = [(s.m_pid, SIGHUP), (s.m_pid, SIGTERM), (s.m_pid, SIGKILL)] := by
          rw [hk, he]; simp [h1, h2, killCalls]
        have hb3 : blockingWaits (close s a).calls = 1 := by
          rw [hb, he]; simp [h1, h2, blockingWaits]
        refine ⟨?_, ⟨3, by decide, ?_⟩, fun _ => h1, fun _ => ⟨h1, h2, hb3, ?_⟩, ?_, ?_, ?_⟩
        · rw [hk3]; simp [h1, h2, escalation]
        · rw [hk3]; simp [escalation]
        · refine ⟨closeWake s ++ (closeMaster s).2 ++ (closeSlave (closeMaster s).1).2 ++
              [OsCall.kill s.m_pid SIGHUP, OsCall.waitpid s.m_pid true,
               OsCall.kill s.m_pid SIGTERM, OsCall.usleep 100000, OsCall.waitpid s.m_pid true],
            (closePipes (closeChild (closeSlave (closeMaster s).1).1 a).1).2, ?_, q4.1⟩
          rw [hc, he]
          simp [h1, h2]
        · intro hn
          exact absurd (by rw [hk3]; simp) hn
        · intro st hst
          rw [h1] at hst
          cases hst
        · intro st _ hst
          rw [h2] at hst
          cases hst
      · have hk2 : killCalls (close s a).calls = [(s.m_pid, SIGHUP), (s.m_pid, SIGTERM)] := by
          rw [hk, he]; simp [h1, h2, killCalls]
        have hb2 : blockingWaits (close s a).calls = 0 := by
          rw [hb, he]; simp [h1, h2, blockingWaits]
        refine ⟨?_, ⟨2, by decide, ?_⟩, fun _ => h1, ?_, fun _ => hb2, ?_, fun _ _ _ => hk2⟩
        · rw [hk2]; simp [h1, h2, escalation]
        · rw [hk2]; simp [escalation]
        · intro hin
          rw [hk2] at hin
          simp [SIGKILL, SIGHUP, SIGTERM] at hin
        · intro st hst
          rw [h1] at hst
          cases hst
    · have hk1 : killCalls (close s a).calls = [(s.m_pid, SIGHUP)] := by
        rw [hk, he]; simp [h1, killCalls]
      have hb1 : blockingWaits (close s a).calls = 0 := by
        rw [hb, he]; simp [h1, blockingWaits]
      refine ⟨?_, ⟨1, by decide, ?_⟩, ?_, ?_, fun _ => hb1, fun _ _ => hk1, ?_⟩
      · rw [hk1]; simp [h1, escalation]
      · rw [hk1]; simp [escalation]
      · intro hin
        rw [hk1] at hin
        simp [SIGHUP, SIGTERM] at hin
      · intro hin
        rw [hk1] at hin
        simp [SIGKILL, SIGHUP] at hin
      · intro st hw1
        exact absurd hw1 h1
  · intro hrun
    rw [close_calls_stopped s a hrun]
    have q1 := closeWake_quiet s
    have q2 := closeMaster_quiet s
    have q3 := closeSlave_quiet (closeMaster s).1
    have q4 := closePipes_quiet (closeChild (closeSlave (closeMaster s).1).1 a).1
    simp only [killCalls_append, q1.1, q2.1, q3.1, q4.1, List.append_nil]

theorem close_escalation_order_witness :
    killCalls (close sampleRunning ⟨0, .noChange, .noChange, .reaped 9⟩).calls
      = [(1234, 1), (1234, 15), (1234, 9)] ∧
    killCalls (close sampleRunning ⟨0, .noChange, .reaped 15, .noChange⟩).calls
      = [(1234, 1), (1234, 15)] ∧
    killCalls (close sampleRunning ⟨0, .reaped 1, .noChange, .noChange⟩).calls
      = [(1234, 1)] ∧
    killCalls (close sampleFresh ⟨0, .noChange, .noChange, .noChange⟩).calls = [] :=
  ⟨((close_escalation_order sampleRunning ⟨0, .noChange, .noChange, .reaped 9⟩).1
      rfl (by decide)).1,
   ((close_escalation_order sampleRunning ⟨0, .noChange, .reaped 15, .noChange⟩).1
      rfl (by decide)).2.2.2.2.2.2 15 rfl rfl,
   ((close_escalation_order sampleRunning ⟨0, .reaped 1, .noChange, .noChange⟩).1
      rfl (by decide)).2.2.2.2.2.1 1 rfl,
   (close_escalation_order sampleFresh ⟨0, .noChange, .noChange, .noChange⟩).2 rfl⟩

/-- C16: `close` on a running session whose first `waitpid` fails examines the
local variable `status` although no wait has written it: with the same
session and the same answers of the operating system, `exitCode()` is 0
when the variable happens to hold 0 and stays -1 when it happens to hold
9. -/
theorem close_reads_unwritten_status :
    sampleRunning.m_running = true ∧ 0 < sampleRunning.m_pid ∧
    (closeEscalate sampleRunning.m_pid ⟨0, .failed, .noChange, .noChange⟩).1 = 0 ∧
    (closeEscalate sampleRunning.m_pid ⟨9, .failed, .noChange, .noChange⟩).1 = 9 ∧
    exitCode (close sampleRunning ⟨0, .failed, .noChange, .noChange⟩).state = 0 ∧
    exitCode (close sampleRunning ⟨9, .failed, .noChange, .noChange⟩).state = -1 ∧
    exitCode (close sampleRunning ⟨0, .noChange, .failed, .noChange⟩).state = 0 ∧
    exitCode (close sampleRunning ⟨9, .noChange, .failed, .noChange⟩).state = -1 ∧
    exitCode (close sampleRunning ⟨0, .noChange, .noChange, .failed⟩).state = 0 ∧
    exitCode (close sampleRunning ⟨9, .noChange, .noChange, .failed⟩).state = -1 := by
  decide

end PtySession
